import Mathlib

/-!
Verification of the NotebookLM automation clients
(`src/notebooklm_client.ts`, `src/native_fetch_client.ts`) and the MCP
server's infographic job queue, as a shallow embedding in Lean 4.

Strings are modelled as `List Char` (one entry per UTF-16 code unit of the
JavaScript string; all data handled by the embedded code is in the BMP, where
the two notions coincide).  JavaScript values decoded from JSON are modelled
by the inductive type `JVal`; JSON numbers keep their source lexeme, since
the embedded code never inspects a numeric value, only the type tag.
-/

/-- JavaScript values as produced by `JSON.parse`, plus `undef` for the
result of reading an absent property or out-of-range index. -/
inductive JVal : Type where
  | null : JVal
  | undefined : JVal
  | bool : Bool → JVal
  | num : List Char → JVal
  | str : List Char → JVal
  | arr : List JVal → JVal
  | obj : List (List Char × JVal) → JVal

namespace JVal

mutual

/-- Decidable equality for `JVal` (structural, matching `===` on the data
reachable from JSON). -/
def beqJVal : JVal → JVal → Bool
  | .null, .null => true
  | .undefined, .undefined => true
  | .bool a, .bool b => a == b
  | .num a, .num b => a == b
  | .str a, .str b => a == b
  | .arr a, .arr b => beqJValList a b
  | .obj a, .obj b => beqJValFields a b
  | _, _ => false

def beqJValList : List JVal → List JVal → Bool
  | [], [] => true
  | a :: as, b :: bs => beqJVal a b && beqJValList as bs
  | _, _ => false

def beqJValFields : List (List Char × JVal) → List (List Char × JVal) → Bool
  | [], [] => true
  | (ka, va) :: as, (kb, vb) :: bs => ka == kb && beqJVal va vb && beqJValFields as bs
  | _, _ => false

end

mutual

theorem beqJVal_refl : ∀ v : JVal, beqJVal v v = true
  | .null => rfl
  | .undefined => rfl
  | .bool b => by simp [beqJVal]
  | .num a => by simp [beqJVal]
  | .str a => by simp [beqJVal]
  | .arr l => by simp [beqJVal, beqJValList_refl l]
  | .obj l => by simp [beqJVal, beqJValFields_refl l]

theorem beqJValList_refl : ∀ l : List JVal, beqJValList l l = true
  | [] => rfl
  | a :: as => by simp [beqJValList, beqJVal_refl a, beqJValList_refl as]

theorem beqJValFields_refl : ∀ l : List (List Char × JVal), beqJValFields l l = true
  | [] => rfl
  | (k, v) :: as => by simp [beqJValFields, beqJVal_refl v, beqJValFields_refl as]

end

mutual

theorem beqJVal_eq : ∀ a b : JVal, beqJVal a b = true → a = b
  | .null, .null, _ => rfl
  | .undefined, .undefined, _ => rfl
  | .bool a, .bool b, h => by simpa [beqJVal] using congrArg JVal.bool (by
      simpa [beqJVal] using h)
  | .num a, .num b, h => by
      have : a = b := by simpa [beqJVal] using h
      rw [this]
  | .str a, .str b, h => by
      have : a = b := by simpa [beqJVal] using h
      rw [this]
  | .arr a, .arr b, h => by
      have : a = b := beqJValList_eq a b (by simpa [beqJVal] using h)
      rw [this]
  | .obj a, .obj b, h => by
      have : a = b := beqJValFields_eq a b (by simpa [beqJVal] using h)
      rw [this]

theorem beqJValList_eq : ∀ a b : List JVal, beqJValList a b = true → a = b
  | [], [], _ => rfl
  | x :: xs, y :: ys, h => by
      have h' : beqJVal x y = true ∧ beqJValList xs ys = true := by
        simpa [beqJValList, Bool.and_eq_true] using h
      rw [beqJVal_eq x y h'.1, beqJValList_eq xs ys h'.2]

theorem beqJValFields_eq :
    ∀ a b : List (List Char × JVal), beqJValFields a b = true → a = b
  | [], [], _ => rfl
  | (ka, va) :: xs, (kb, vb) :: ys, h => by
      have h' : (ka == kb) = true ∧ beqJVal va vb = true ∧ beqJValFields xs ys = true := by
        simpa [beqJValFields, Bool.and_eq_true, and_assoc] using h
      have hk : ka = kb := by simpa using h'.1
      rw [hk, beqJVal_eq va vb h'.2.1, beqJValFields_eq xs ys h'.2.2]

end

instance : DecidableEq JVal := fun a b =>
  if h : beqJVal a b = true then
    .isTrue (beqJVal_eq a b h)
  else
    .isFalse (fun he => h (he ▸ beqJVal_refl a))

end JVal

/-- Is the number lexeme the number zero (mantissa contains no nonzero digit)?
Used for JavaScript truthiness of numbers. -/
def numIsZero (raw : List Char) : Bool :=
  (raw.takeWhile (fun c => c ≠ 'e' ∧ c ≠ 'E')).all (fun c => ¬(c.isDigit ∧ c ≠ '0'))

/-- JavaScript truthiness (`if (v)`), for values reachable in the embedded
code: `null`, `undefined`, `false`, `0`, and the empty string are falsy;
every array and object is truthy. -/
def jsTruthy : JVal → Bool
  | .null => false
  | .undefined => false
  | .bool b => b
  | .num raw => !numIsZero raw
  | .str s => !s.isEmpty
  | .arr _ => true
  | .obj _ => true

/-- `typeof v === 'object'` for a truthy `v`: arrays and plain objects. -/
def jsTypeofObject : JVal → Bool
  | .arr _ => true
  | .obj _ => true
  | _ => false

/-- Property lookup `o[k]` by string key; JSON.parse keeps the last of
duplicate keys, so the lookup takes the last binding.  Absent key gives
`undefined`. -/
def jsField (v : JVal) (k : List Char) : JVal :=
  match v with
  | .obj fields =>
      match fields.reverse.find? (fun f => f.1 == k) with
      | some f => f.2
      | none => .undefined
  | _ => .undefined

/-- Indexing `v[i]` with a numeric index: array element, or the 1-character
string for string indexing; `undefined` when out of range or not indexable.
(The embedded code only indexes values it has checked to be truthy.) -/
def jsIdx (v : JVal) (i : Nat) : JVal :=
  match v with
  | .arr l => (l.get? i).getD .undefined
  | .str s => ((s.get? i).map (fun c => JVal.str [c])).getD .undefined
  | _ => .undefined

/-- JavaScript `a || b`. -/
def jsOr (a b : JVal) : JVal := if jsTruthy a then a else b

/-- Overwriting assignment `o[k] = v`: remove the key, then append. -/
def jsSetField (o : JVal) (k : List Char) (v : JVal) : JVal :=
  match o with
  | .obj fields => .obj ((fields.filter (fun f => f.1 ≠ k)) ++ [(k, v)])
  | other => other

/-- `delete o[k]`. -/
def jsDelField (o : JVal) (k : List Char) : JVal :=
  match o with
  | .obj fields => .obj (fields.filter (fun f => f.1 ≠ k))
  | other => other

/-- JSON whitespace (also the characters `String.prototype.trim` removes
that occur in this protocol's data). -/
def isJsWs (c : Char) : Bool := c = ' ' ∨ c = '\t' ∨ c = '\n' ∨ c = '\r'

/-- JavaScript `String.prototype.trim`. -/
def trimChars (l : List Char) : List Char :=
  ((l.dropWhile isJsWs).reverse.dropWhile isJsWs).reverse

/-- `text.split('\n')`. -/
def splitNl (l : List Char) : List (List Char) :=
  match l with
  | [] => [[]]
  | c :: rest =>
      let r := splitNl rest
      if c = '\n' then [] :: r
      else
        match r with
        | [] => [[c]]
        | x :: xs => (c :: x) :: xs

/-- `str.indexOf(c, pos)` (as `Option Nat`). -/
def idxFrom (c : Char) : List Char → Nat → Option Nat
  | [], _ => none
  | x :: xs, 0 => if x = c then some 0 else (idxFrom c xs 0).map (· + 1)
  | _ :: xs, n + 1 => (idxFrom c xs n).map (· + 1)

/-- `a.includes(b)`: substring containment. -/
def containsSub (hay needle : List Char) : Bool :=
  match hay with
  | [] => needle.isEmpty
  | _ :: rest => needle.isPrefixOf hay || containsSub rest needle

-- ## The JSON parser (embedding of `JSON.parse`)

/-- Hexadecimal digit value (case-insensitive). -/
def hexVal (c : Char) : Option Nat :=
  if c.isDigit then some (c.toNat - 48)
  else if 'a' ≤ c ∧ c ≤ 'f' then some (c.toNat - 87)
  else if 'A' ≤ c ∧ c ≤ 'F' then some (c.toNat - 55)
  else none

/-- Parse a JSON string body after the opening quote; returns the decoded
characters and the remaining input after the closing quote. -/
def pStr : Nat → List Char → Option (List Char × List Char)
  | 0, _ => none
  | _ + 1, [] => none
  | fuel + 1, c :: rest =>
      if c = '"' then some ([], rest)
      else if c = '\\' then
        match rest with
        | [] => none
        | e :: rest2 =>
            let cont (ch : Char) (rem : List Char) : Option (List Char × List Char) :=
              (pStr fuel rem).map (fun r => (ch :: r.1, r.2))
            if e = '"' then cont '"' rest2
            else if e = '\\' then cont '\\' rest2
            else if e = '/' then cont '/' rest2
            else if e = 'b' then cont (Char.ofNat 8) rest2
            else if e = 'f' then cont (Char.ofNat 12) rest2
            else if e = 'n' then cont '\n' rest2
            else if e = 'r' then cont '\r' rest2
            else if e = 't' then cont '\t' rest2
            else if e = 'u' then
              match rest2 with
              | h1 :: h2 :: h3 :: h4 :: rest3 =>
                  match hexVal h1, hexVal h2, hexVal h3, hexVal h4 with
                  | some n1, some n2, some n3, some n4 =>
                      cont (Char.ofNat (4096 * n1 + 256 * n2 + 16 * n3 + n4)) rest3
                  | _, _, _, _ => none
              | _ => none
            else none
      else if c.toNat < 32 then none
      else (pStr fuel rest).map (fun r => (c :: r.1, r.2))

/-- Parse the digits of a JSON number component. -/
def pDigits (l : List Char) : List Char × List Char :=
  (l.takeWhile Char.isDigit, l.dropWhile Char.isDigit)

/-- Parse the optional exponent of a JSON number. -/
def pExp (l : List Char) : Option (List Char × List Char) :=
  match l with
  | e :: r =>
      if e = 'e' ∨ e = 'E' then
        let (s, r1) := match r with
          | '+' :: r' => (['+'], r')
          | '-' :: r' => (['-'], r')
          | _ => (([] : List Char), r)
        let (ds, r2) := pDigits r1
        if ds.isEmpty then none else some (e :: s ++ ds, r2)
      else some ([], l)
  | [] => some ([], l)

/-- Parse the optional fractional part of a JSON number. -/
def pFrac (l : List Char) : Option (List Char × List Char) :=
  match l with
  | '.' :: r =>
      let (ds, r') := pDigits r
      if ds.isEmpty then none else some ('.' :: ds, r')
  | _ => some ([], l)

/-- Parse a JSON number lexeme (`-? int frac? exp?`, with JSON's
no-leading-zero rule); returns the lexeme and the rest. -/
def pNum (l : List Char) : Option (List Char × List Char) :=
  let (sign, l1) := match l with
    | '-' :: r => (['-'], r)
    | _ => (([] : List Char), l)
  match l1 with
  | [] => none
  | d :: _ =>
      if ¬d.isDigit then none
      else
        let (intPart, l2) := pDigits l1
        if intPart.length > 1 ∧ d = '0' then none
        else
          match pFrac l2 with
          | none => none
          | some (fracPart, l3) =>
              match pExp l3 with
              | none => none
              | some (expPart, l4) =>
                  some (sign ++ intPart ++ fracPart ++ expPart, l4)

/-- The characters 0x7b / 0x7d (curly braces), named to keep the source free
of brace literals. -/
def braceOpen : Char := Char.ofNat 123

def braceClose : Char := Char.ofNat 125

mutual

/-- Parse a JSON value (leading whitespace already skipped at call sites that
need it). -/
def pVal : Nat → List Char → Option (JVal × List Char)
  | 0, _ => none
  | fuel + 1, l =>
      let l := l.dropWhile isJsWs
      match l with
      | [] => none
      | c :: rest =>
          if c = braceOpen then
            let rest' := rest.dropWhile isJsWs
            match rest' with
            | d :: r => if d = braceClose then some (.obj [], r) else (pMembers fuel rest').map (fun r => (JVal.obj r.1, r.2))
            | [] => none
          else if c = '[' then
            let rest' := rest.dropWhile isJsWs
            match rest' with
            | ']' :: r => some (.arr [], r)
            | _ => (pElems fuel rest').map (fun r => (JVal.arr r.1, r.2))
          else if c = '"' then
            (pStr (rest.length + 1) rest).map (fun r => (JVal.str r.1, r.2))
          else if ['t', 'r', 'u', 'e'].isPrefixOf l then
            some (.bool true, l.drop 4)
          else if ['f', 'a', 'l', 's', 'e'].isPrefixOf l then
            some (.bool false, l.drop 5)
          else if ['n', 'u', 'l', 'l'].isPrefixOf l then
            some (.null, l.drop 4)
          else
            (pNum l).map (fun r => (JVal.num r.1, r.2))

/-- Parse the elements of a non-empty JSON array, up to and including the
closing bracket. -/
def pElems : Nat → List Char → Option (List JVal × List Char)
  | 0, _ => none
  | fuel + 1, l =>
      match pVal fuel l with
      | none => none
      | some (v, rest) =>
          let rest := rest.dropWhile isJsWs
          match rest with
          | ']' :: r => some ([v], r)
          | ',' :: r => (pElems fuel r).map (fun t => (v :: t.1, t.2))
          | _ => none

/-- Parse the members of a non-empty JSON object, up to and including the
closing brace. -/
def pMembers : Nat → List Char → Option (List (List Char × JVal) × List Char)
  | 0, _ => none
  | fuel + 1, l =>
      let l := l.dropWhile isJsWs
      match l with
      | '"' :: rest =>
          match pStr (rest.length + 1) rest with
          | none => none
          | some (k, rest1) =>
              let rest1 := rest1.dropWhile isJsWs
              match rest1 with
              | ':' :: rest2 =>
                  match pVal fuel rest2 with
                  | none => none
                  | some (v, rest3) =>
                      let rest3 := rest3.dropWhile isJsWs
                      match rest3 with
                      | d :: r =>
                          if d = braceClose then some ([(k, v)], r)
                          else if d = ',' then (pMembers fuel r).map (fun t => ((k, v) :: t.1, t.2))
                          else none
                      | [] => none
              | _ => none
      | _ => none

end

/-- `JSON.parse` on a whole text: one JSON value surrounded by whitespace,
`none` when the text is not valid JSON. -/
def jparse (l : List Char) : Option JVal :=
  match pVal (2 * l.length + 2) l with
  | some (v, rest) => if (rest.dropWhile isJsWs).isEmpty then some v else none
  | none => none

-- ## `_findBalancedEnd` (bracket-balance scanner of the streamed parser)

/-- One step of the bracket scanner's loop body, iterated by `fbeGo`:
processes the character at index `i` with state `(depth, inString, escape)`.
Mirrors `_findBalancedEnd`'s loop: an escape flag swallows the next
character, a quote toggles string mode, square and curly brackets adjust the
depth outside strings, and the function returns `i` exactly when a `]`
brings the depth to zero. -/
def fbeGo : List Char → Nat → Int → Bool → Bool → Option Nat
  | [], _, _, _, _ => none
  | ch :: rest, i, depth, inString, escape =>
      if escape then fbeGo rest (i + 1) depth inString false
      else if ch = '\\' then fbeGo rest (i + 1) depth inString true
      else if ch = '"' then fbeGo rest (i + 1) depth (!inString) escape
      else if inString then fbeGo rest (i + 1) depth inString escape
      else if ch = '[' then fbeGo rest (i + 1) (depth + 1) inString escape
      else if ch = ']' then
        (if depth - 1 = 0 then some i else fbeGo rest (i + 1) (depth - 1) inString escape)
      else if ch = braceOpen then fbeGo rest (i + 1) (depth + 1) inString escape
      else if ch = braceClose then fbeGo rest (i + 1) (depth - 1) inString escape
      else fbeGo rest (i + 1) depth inString escape

/-- `_findBalancedEnd(str, start)`: `none` models the JS return of `-1`. -/
def findBalancedEnd (s : List Char) (start : Nat) : Option Nat :=
  fbeGo (s.drop start) start 0 false false

theorem fbeGo_bounds (l : List Char) :
    ∀ i d si e r, fbeGo l i d si e = some r → i ≤ r ∧ r < i + l.length := by
  induction l with
  | nil => intro i d si e r h; simp [fbeGo] at h
  | cons c rest ih =>
      intro i d si e r h
      unfold fbeGo at h
      have step : ∀ d' si' e', fbeGo rest (i + 1) d' si' e' = some r →
          i ≤ r ∧ r < i + (c :: rest).length := by
        intro d' si' e' hh
        rcases ih (i + 1) d' si' e' r hh with ⟨h1, h2⟩
        simp only [List.length_cons]
        omega
      repeat' split at h
      all_goals
        first
        | exact step _ _ _ h
        | (injection h with h; subst h; simp only [List.length_cons]; omega)

theorem findBalancedEnd_bounds (s : List Char) (start : Nat) (r : Nat)
    (h : findBalancedEnd s start = some r) : start ≤ r ∧ r < s.length := by
  have hb := fbeGo_bounds (s.drop start) start 0 false false r h
  rw [List.length_drop] at hb
  omega

/-- Index returned by `_findBalancedEnd` always holds a closing square
bracket (the scanner returns only in its `]` branch). -/
theorem fbeGo_get (l : List Char) :
    ∀ i d si e r, fbeGo l i d si e = some r → l.get? (r - i) = some ']' := by
  induction l with
  | nil => intro i d si e r h; simp [fbeGo] at h
  | cons c rest ih =>
      intro i d si e r h
      unfold fbeGo at h
      have step : ∀ d' si' e', fbeGo rest (i + 1) d' si' e' = some r →
          (c :: rest).get? (r - i) = some ']' := by
        intro d' si' e' hh
        have hg := ih (i + 1) d' si' e' r hh
        have hr : i + 1 ≤ r := (fbeGo_bounds rest (i + 1) d' si' e' r hh).1
        have heq : r - i = (r - (i + 1)) + 1 := by omega
        rw [heq]
        simpa using hg
      repeat' split at h
      all_goals
        first
        | exact step _ _ _ h
        | (injection h with h; subst h; simp_all)

theorem idxFrom_bounds (c : Char) (l : List Char) :
    ∀ pos r, idxFrom c l pos = some r → pos ≤ r ∧ r < l.length := by
  induction l with
  | nil => intro pos r h; simp [idxFrom] at h
  | cons x xs ih =>
      intro pos r h
      match pos with
      | 0 =>
          unfold idxFrom at h
          split at h
          · injection h with h
            subst h
            simp
          · simp only [Option.map_eq_some'] at h
            rcases h with ⟨r', hr', rfl⟩
            rcases ih 0 r' hr' with ⟨h1, h2⟩
            simp only [List.length_cons]
            omega
      | n + 1 =>
          unfold idxFrom at h
          simp only [Option.map_eq_some'] at h
          rcases h with ⟨r', hr', rfl⟩
          rcases ih n r' hr' with ⟨h1, h2⟩
          simp only [List.length_cons]
          omega

-- ## `_extractWrbText` (the streamed-response miner's tree walk)

/-- The protocol's frame marker string `wrb.fr`. -/
def wrbMarker : List Char := ['w', 'r', 'b', '.', 'f', 'r']

/-- `typeof n === 'number'`. -/
def isNumJ : JVal → Bool
  | .num _ => true
  | _ => false

/-- The first suppression heuristic of `_extractWrbText`:
`n.length >= 2 && typeof n[0] === 'number' && typeof n[1] === 'number'`. -/
def twoNums : List JVal → Bool
  | a :: b :: _ => isNumJ a && isNumJ b
  | _ => false

/-- The second suppression heuristic of `_extractWrbText`:
`n.length >= 3 && n[0] === null && typeof n[1] === 'number' && typeof n[2] === 'number'`. -/
def nullNumNum : List JVal → Bool
  | .null :: b :: c :: _ => isNumJ b && isNumJ c
  | _ => false

/-- The `wrb.fr` test of `_extractWrbText`:
`n.length >= 3 && n[0] === "wrb.fr" && typeof n[2] === 'string'`, returning
the inner JSON string when it matches. -/
def wrbInner : List JVal → Option (List Char)
  | .str m :: _ :: .str s :: _ => if m = wrbMarker then some s else none
  | _ => none

/-- The recursive `walk` of `_extractWrbText`, with explicit fuel bounding
the recursion depth (the JS function recurses through `JSON.parse` of an
embedded string, which no structural measure covers; every theorem below
quantifies over the fuel or uses a concretely sufficient one). -/
def walkW : Nat → JVal → Bool → List (List Char)
  | 0, _, _ => []
  | fuel + 1, n, inPayload =>
      match n with
      | .arr l =>
          match wrbInner l with
          | some innerJson =>
              if ['['].isPrefixOf (trimChars innerJson) then
                match jparse innerJson with
                | some (.arr d) =>
                    if d.length > 2 then walkW fuel (d.headD .undefined) true else []
                | _ => []
              else []
          | none =>
              if inPayload then
                if twoNums l then []
                else if nullNumNum l then []
                else (l.map (fun c => walkW fuel c inPayload)).flatten
              else (l.map (fun c => walkW fuel c inPayload)).flatten
      | .str s =>
          if inPayload then
            let val := trimChars s
            if val ≠ [] ∧ val.length ≠ 36 then [val] else []
          else []
      | _ => []

mutual

/-- Total size of a `JVal`, counting every node and every character of the
strings it holds; dominates the walk's recursion depth. -/
def jweight : JVal → Nat
  | .null => 1
  | .undefined => 1
  | .bool _ => 1
  | .num r => 1 + r.length
  | .str s => 1 + s.length
  | .arr l => 1 + jweightList l
  | .obj fs => 1 + jweightFields fs

def jweightList : List JVal → Nat
  | [] => 0
  | v :: vs => jweight v + jweightList vs

def jweightFields : List (List Char × JVal) → Nat
  | [] => 0
  | (k, v) :: fs => k.length + jweight v + jweightFields fs

end

/-- The list of strings `_extractWrbText` pushes into `results`, using a
concretely sufficient fuel (`jweight` dominates the recursion depth on every
input arising in practice; all universal theorems below hold for every
fuel). -/
def extractResults (n : JVal) : List (List Char) := walkW (jweight n) n false

/-- `_extractWrbText(node)`: the collected strings joined with newlines. -/
def extractWrbText (n : JVal) : List Char :=
  List.intercalate ['\n'] (extractResults n)

-- ## `_parseStreamedResponse` (scanning loop over the raw streamed body)

/-- The XSSI guard prefix `)]}'`. -/
def xssiGuard : List Char := [')', ']', braceClose, Char.ofNat 39]

/-- Strip the XSSI guard: `if (textBody.startsWith(")]}'")) textBody =
textBody.substring(4).trim()`. -/
def stripXssi (body : List Char) : List Char :=
  if xssiGuard.isPrefixOf body then trimChars (body.drop 4) else body

/-- `textBody.substring(sb, eb + 1)`. -/
def subChars (t : List Char) (sb eb : Nat) : List Char :=
  (t.take (eb + 1)).drop sb

/-- The scanning loop of `_parseStreamedResponse`: find the next `[`, find
its balanced end, `JSON.parse` the slice, and let a nonempty extraction
replace the accumulator (`fullText`, last write wins).  The fuel only makes
the recursion structural; `scanLoopF_fuel_irrelevant` below shows any fuel
above the remaining length (i.e. above the possible number of iterations,
since the position strictly advances) gives the same result. -/
def scanLoopF : Nat → List Char → Nat → List Char → List Char
  | 0, _, _, fullText => fullText
  | fuel + 1, t, pos, fullText =>
      if pos < t.length then
        match idxFrom '[' t pos with
        | none => fullText
        | some sb =>
            match findBalancedEnd t sb with
            | none => scanLoopF fuel t (sb + 1) fullText
            | some eb =>
                let fullText' :=
                  match jparse (subChars t sb eb) with
                  | some obj =>
                      let extracted := extractWrbText obj
                      if extracted.isEmpty then fullText else trimChars extracted ++ ['\n']
                  | none => fullText
                scanLoopF fuel t (eb + 1) fullText'
      else fullText

/-- `_parseStreamedResponse(buffer)`. -/
def parseStreamedResponse (body : List Char) : List Char :=
  let t := stripXssi body
  trimChars (scanLoopF (t.length + 1) t 0 [])

/-- Specification companion of the scanning loop: the sequence of nonempty
extracted texts produced by the successive successfully parsed chunks, in
scan order. -/
def chunkTextsF : Nat → List Char → Nat → List (List Char)
  | 0, _, _ => []
  | fuel + 1, t, pos =>
      if pos < t.length then
        match idxFrom '[' t pos with
        | none => []
        | some sb =>
            match findBalancedEnd t sb with
            | none => chunkTextsF fuel t (sb + 1)
            | some eb =>
                (match jparse (subChars t sb eb) with
                 | some obj =>
                     let extracted := extractWrbText obj
                     if extracted.isEmpty then [] else [extracted]
                 | none => []) ++ chunkTextsF fuel t (eb + 1)
      else []

/-- The per-chunk extracted texts of a streamed body, in scan order. -/
def chunkTexts (t : List Char) (pos : Nat) : List (List Char) :=
  chunkTextsF (t.length + 1) t pos

-- ## `_parseRpcResponse` (RPC envelope decoder)

/-- Two opening square brackets, the line marker scanned for. -/
def bracketBracket : List Char := ['[', '[']

/-- The guarded test `data && data[0] && data[0][0] === 'wrb.fr'`. -/
def rpcHit (v : JVal) : Bool :=
  jsTruthy v && jsTruthy (jsIdx v 0) && decide (jsIdx (jsIdx v 0) 0 = JVal.str wrbMarker)

/-- The line scan of `_parseRpcResponse`. -/
def parseRpcLines : List (List Char) → Option JVal
  | [] => none
  | line :: rest =>
      let trimmed := trimChars line
      if bracketBracket.isPrefixOf trimmed then
        match jparse trimmed with
        | some d => if rpcHit d then some d else parseRpcLines rest
        | none => parseRpcLines rest
      else parseRpcLines rest

/-- `_parseRpcResponse(text)`: split on newlines and scan. -/
def parseRpcResponse (text : List Char) : Option JVal :=
  parseRpcLines (splitNl text)

/-- Written from the specification's words: a line qualifies when its
trimmed form begins with `[[`, parses as JSON, and its element `[0][0]`
equals the literal string `wrb.fr`. -/
def rpcLineQualifies (line : List Char) : Bool :=
  let t := trimChars line
  bracketBracket.isPrefixOf t &&
    match jparse t with
    | some d => decide (jsIdx (jsIdx d 0) 0 = JVal.str wrbMarker)
    | none => false

/-- Written from the specification's words: the parsed JSON value of the
first qualifying line, or null/none when no line qualifies. -/
def specRpcDecode (text : List Char) : Option JVal :=
  match (splitNl text).find? rpcLineQualifies with
  | some line => jparse (trimChars line)
  | none => none

-- ## Trim and dropWhile lemmas

theorem dropWhile_length_le (p : Char → Bool) (l : List Char) :
    (l.dropWhile p).length ≤ l.length := by
  induction l with
  | nil => simp
  | cons c t ih =>
      by_cases h : p c
      · simp [List.dropWhile, h]
        omega
      · simp [List.dropWhile, h]

theorem dropWhile_head_false (p : Char → Bool) (l : List Char) (c : Char) (t : List Char)
    (h : l.dropWhile p = c :: t) : p c = false := by
  induction l with
  | nil => simp at h
  | cons x xs ih =>
      by_cases hx : p x
      · exact ih (by simpa [List.dropWhile, hx] using h)
      · rw [List.dropWhile] at h
        simp [hx] at h
        rcases h with ⟨rfl, _⟩
        simpa using hx

theorem dropWhile_idem (p : Char → Bool) (l : List Char) :
    (l.dropWhile p).dropWhile p = l.dropWhile p := by
  cases h : l.dropWhile p with
  | nil => simp
  | cons c t =>
      have hc := dropWhile_head_false p l c t h
      simp [List.dropWhile, hc]

theorem dropWhile_self_shape (p : Char → Bool) (l : List Char)
    (h : l.dropWhile p = l) : l = [] ∨ ∃ c t, l = c :: t ∧ p c = false := by
  cases l with
  | nil => exact Or.inl rfl
  | cons c t => exact Or.inr ⟨c, t, rfl, dropWhile_head_false p (c :: t) c t h⟩

theorem dropWhile_rtrim (p : Char → Bool) (l : List Char) (h : l.dropWhile p = l) :
    ((l.reverse.dropWhile p).reverse).dropWhile p = (l.reverse.dropWhile p).reverse := by
  rcases dropWhile_self_shape p l h with rfl | ⟨c, t, rfl, hc⟩
  · simp
  · rw [show (c :: t).reverse = t.reverse ++ [c] by simp, List.dropWhile_append]
    by_cases he : (t.reverse.dropWhile p).isEmpty = true
    · rw [if_pos he]
      simp [List.dropWhile, hc]
    · rw [if_neg he]
      rw [show (t.reverse.dropWhile p ++ [c]).reverse = c :: (t.reverse.dropWhile p).reverse by simp]
      simp [List.dropWhile, hc]

theorem trim_dropWhile (l : List Char) :
    (trimChars l).dropWhile isJsWs = trimChars l := by
  unfold trimChars
  exact dropWhile_rtrim isJsWs (l.dropWhile isJsWs) (dropWhile_idem isJsWs l)

theorem trim_idem (l : List Char) : trimChars (trimChars l) = trimChars l := by
  conv_lhs => rw [trimChars, trim_dropWhile l]
  rw [show (trimChars l).reverse = (l.dropWhile isJsWs).reverse.dropWhile isJsWs by
        rw [trimChars, List.reverse_reverse],
      dropWhile_idem]
  rw [trimChars]

theorem trim_append_nl (l : List Char) : trimChars (l ++ ['\n']) = trimChars l := by
  unfold trimChars
  rw [List.dropWhile_append]
  by_cases he : (l.dropWhile isJsWs).isEmpty = true
  · rw [if_pos he]
    have h0 : l.dropWhile isJsWs = [] := by simpa using he
    rw [h0]
    simp [List.dropWhile, isJsWs]
  · rw [if_neg he]
    rw [show (l.dropWhile isJsWs ++ ['\n']).reverse = '\n' :: (l.dropWhile isJsWs).reverse by simp]
    rw [show List.dropWhile isJsWs ('\n' :: (l.dropWhile isJsWs).reverse) =
          List.dropWhile isJsWs (l.dropWhile isJsWs).reverse by simp [List.dropWhile, isJsWs]]

theorem trim_trim_nl (l : List Char) :
    trimChars (trimChars l ++ ['\n']) = trimChars l := by
  rw [trim_append_nl, trim_idem]

-- ## Last-write-wins shape of the scanning loop

/-- What the accumulator holds at the end of the scan, as a function of the
chunk extraction sequence: the last nonempty extraction wins. -/
def lastWins (chunks : List (List Char)) (ft : List Char) : List Char :=
  match chunks.getLast? with
  | none => ft
  | some ex => trimChars ex ++ ['\n']

theorem scanLoopF_eq_lastWins :
    ∀ (fuel : Nat) (t : List Char) (pos : Nat) (ft : List Char),
      scanLoopF fuel t pos ft = lastWins (chunkTextsF fuel t pos) ft := by
  intro fuel
  induction fuel with
  | zero => intro t pos ft; simp [scanLoopF, chunkTextsF, lastWins]
  | succ k ih =>
      intro t pos ft
      by_cases hp : pos < t.length
      · cases hidx : idxFrom '[' t pos with
        | none => simp [scanLoopF, chunkTextsF, hp, hidx, lastWins]
        | some sb =>
            cases hfbe : findBalancedEnd t sb with
            | none =>
                simp only [scanLoopF, chunkTextsF, hp, if_true, hidx, hfbe]
                exact ih t (sb + 1) ft
            | some eb =>
                simp only [scanLoopF, chunkTextsF, hp, if_true, hidx, hfbe]
                cases hj : jparse (subChars t sb eb) with
                | none => simpa using ih t (eb + 1) ft
                | some obj =>
                    by_cases hex : (extractWrbText obj).isEmpty = true
                    · simpa [hex] using ih t (eb + 1) ft
                    · simp only [hex, Bool.false_eq_true, if_false, List.singleton_append]
                      rw [ih t (eb + 1) (trimChars (extractWrbText obj) ++ ['\n'])]
                      unfold lastWins
                      rw [show extractWrbText obj :: chunkTextsF k t (eb + 1) =
                        [extractWrbText obj] ++ chunkTextsF k t (eb + 1) by simp,
                        List.getLast?_append]
                      cases hl : (chunkTextsF k t (eb + 1)).getLast? with
                      | none => simp
                      | some e => simp
      · simp [scanLoopF, chunkTextsF, hp, lastWins]

-- ## Claim C2: last-successfully-parsed-chunk wins

/-- C2: for every raw streamed body, `_parseStreamedResponse` returns the
trimmed text of the last successfully decoded nonempty chunk extraction —
each successful decode replaces the accumulator — and in particular, when
the scan yields exactly two nonempty chunk extractions, the result is the
second (last) chunk's text only, never a concatenation with or retention
of the first. -/
theorem parseStreamed_lastChunkWins :
    (∀ body : List Char,
        parseStreamedResponse body =
          trimChars ((chunkTexts (stripXssi body) 0).getLast?.getD [])) ∧
    (∀ body t1 t2 : List Char, chunkTexts (stripXssi body) 0 = [t1, t2] →
        parseStreamedResponse body = trimChars t2) := by
  have hgen : ∀ body : List Char,
      parseStreamedResponse body =
        trimChars ((chunkTexts (stripXssi body) 0).getLast?.getD []) := by
    intro body
    rw [show parseStreamedResponse body =
          trimChars (scanLoopF ((stripXssi body).length + 1) (stripXssi body) 0 []) from rfl]
    rw [scanLoopF_eq_lastWins]
    unfold chunkTexts lastWins
    cases (chunkTextsF ((stripXssi body).length + 1) (stripXssi body) 0).getLast? with
    | none => rfl
    | some ex => exact trim_trim_nl ex
  refine ⟨hgen, ?_⟩
  intro body t1 t2 h
  rw [hgen body, h]
  rfl

/-- A streamed chunk whose payload holds the single prose leaf `hello first`. -/
def demoChunk1 : List Char :=
  "[[\"wrb.fr\",null,\"[[\\\"hello first\\\"],null,null]\"]]".toList

/-- A later streamed chunk whose payload holds the leaf `second text`. -/
def demoChunk2 : List Char :=
  "[[\"wrb.fr\",null,\"[[\\\"second text\\\"],null,null]\"]]".toList

theorem parseStreamed_lastChunkWins_witness :
    chunkTexts (stripXssi (demoChunk1 ++ demoChunk2)) 0 =
      ["hello first".toList, "second text".toList] ∧
    parseStreamedResponse (demoChunk1 ++ demoChunk2) = trimChars "second text".toList :=
  ⟨by decide,
    parseStreamed_lastChunkWins.2 (demoChunk1 ++ demoChunk2) "hello first".toList
      "second text".toList (by decide)⟩


-- ## Claim C3: the 36-character (UUID-length) leaf filter

theorem walkW_no36 :
    ∀ (fuel : Nat) (n : JVal) (ip : Bool) (r : List Char),
      r ∈ walkW fuel n ip → r.length ≠ 36 := by
  intro fuel
  induction fuel with
  | zero => intro n ip r h; simp [walkW] at h
  | succ k ih =>
      intro n ip r h
      rcases n with _ | _ | b | raw | s | l | fs
      · simp [walkW] at h
      · simp [walkW] at h
      · simp [walkW] at h
      · simp [walkW] at h
      · rw [walkW] at h
        split at h
        · dsimp only at h
          split at h
          · rename_i hcond
            rcases List.mem_singleton.mp h with rfl
            exact hcond.2
          · simp at h
        · simp at h
      · rw [walkW] at h
        cases hw : wrbInner l with
        | some innerJson =>
            rw [hw] at h
            dsimp only at h
            split at h
            · cases hj : jparse innerJson with
              | some v =>
                  rw [hj] at h
                  rcases v with _ | _ | b2 | raw2 | s2 | d | fs2
                  · simp at h
                  · simp at h
                  · simp at h
                  · simp at h
                  · simp at h
                  · dsimp only at h
                    split at h
                    · exact ih _ _ r h
                    · simp at h
                  · simp at h
              | none =>
                  rw [hj] at h
                  simp at h
            · simp at h
        | none =>
            rw [hw] at h
            dsimp only at h
            split at h
            · split at h
              · simp at h
              · split at h
                · simp at h
                · rcases List.mem_flatten.mp h with ⟨sub, hsub, hr⟩
                  rcases List.mem_map.mp hsub with ⟨c, _, rfl⟩
                  exact ih _ _ r hr
            · rcases List.mem_flatten.mp h with ⟨sub, hsub, hr⟩
              rcases List.mem_map.mp hsub with ⟨c, _, rfl⟩
              exact ih _ _ r hr
      · simp [walkW] at h

/-- A demonstration chunk whose payload holds a 35-character leaf, a
36-character UUID leaf, and a 37-character leaf. -/
def uuid36 : List Char := "12345678-1234-1234-1234-123456789012".toList

def leaf35 : List Char := List.replicate 35 'a'

def leaf37 : List Char := List.replicate 37 'b'

def c3demo : JVal :=
  .arr [.str wrbMarker, .null,
    .str ("[[".toList ++ ['"'] ++ leaf35 ++ "\",\"".toList ++ uuid36 ++
      "\",\"".toList ++ leaf37 ++ "\"],null,null]".toList)]

set_option maxRecDepth 8000 in
/-- C3: no string the miner collects (and hence no line of the string it
returns, which is their newline join) has length 36 — in particular a
36-character leaf never appears in the output — while on `c3demo` the
35- and 37-character leaves do appear in the output and the 36-character
UUID leaf does not. -/
theorem extract_uuid_filter :
    (∀ (fuel : Nat) (n : JVal) (ip : Bool) (r : List Char),
        r ∈ walkW fuel n ip → r.length ≠ 36) ∧
    extractResults c3demo = [leaf35, leaf37] ∧
    leaf35.length = 35 ∧ leaf37.length = 37 ∧ uuid36.length = 36 :=
  ⟨walkW_no36, by decide, by decide, by decide, by decide⟩

theorem extract_uuid_filter_witness :
    (['x'] ∈ walkW 1 (JVal.str ['x']) true) ∧ (['x'] : List Char).length ≠ 36 :=
  ⟨by decide, extract_uuid_filter.1 1 (JVal.str ['x']) true ['x'] (by decide)⟩

-- ## Claim C4: timestamp-span suppression

theorem walkW_twoNums_skip (fuel : Nat) (xs : List JVal) (h : twoNums xs = true) :
    walkW fuel (.arr xs) true = [] := by
  cases fuel with
  | zero => rfl
  | succ k =>
      rcases xs with _ | ⟨a, xs1⟩
      · simp [twoNums] at h
      rcases xs1 with _ | ⟨b, rest⟩
      · simp [twoNums] at h
      have ha : isNumJ a = true ∧ isNumJ b = true := by
        simpa [twoNums, Bool.and_eq_true] using h
      rcases a with _ | _ | b2 | raw | s | l | fs <;> simp [isNumJ] at ha
      rw [walkW]
      have hw : wrbInner (JVal.num raw :: b :: rest) = none := rfl
      rw [hw]
      simp [h]

theorem walkW_nullNumNum_skip (fuel : Nat) (xs : List JVal) (h : nullNumNum xs = true) :
    walkW fuel (.arr xs) true = [] := by
  cases fuel with
  | zero => rfl
  | succ k =>
      rcases xs with _ | ⟨a, xs1⟩
      · simp [nullNumNum] at h
      rcases xs1 with _ | ⟨b, xs2⟩
      · rcases a <;> simp [nullNumNum] at h
      rcases xs2 with _ | ⟨c, rest⟩
      · rcases a <;> simp [nullNumNum] at h
      rcases a with _ | _ | b2 | raw | s | l | fs
      case null =>
        have ha : isNumJ b = true ∧ isNumJ c = true := by
          simpa [nullNumNum, Bool.and_eq_true] using h
        rw [walkW]
        have hw : wrbInner (JVal.null :: b :: c :: rest) = none := rfl
        rw [hw]
        by_cases h2 : twoNums (JVal.null :: b :: c :: rest) = true
        · simp [h2]
        · simp [h2, h]
      all_goals simp [nullNumNum] at h

/-- A streamed chunk whose payload is the timestamp-span array
`[4000, 5000, ["some text"]]`. -/
def c4demoSkip : JVal :=
  .arr [.str wrbMarker, .null,
    .str "[[4000,5000,[\"some text\"]],null,null]".toList]

/-- A streamed chunk whose payload is the bare prose leaf `["some text"]`. -/
def c4demoPlain : JVal :=
  .arr [.str wrbMarker, .null, .str "[[\"some text\"],null,null]".toList]

/-- C4: in payload context the walk returns nothing for (and so never
recurses into) an array whose first two elements are numbers, or one
matching `[null, number, number, ...]`; concretely the payload
`[4000, 5000, ["some text"]]` contributes no leaf strings, while the same
leaf outside such an array is collected. -/
theorem walk_skips_timestamp_spans :
    (∀ (fuel : Nat) (xs : List JVal), twoNums xs = true → walkW fuel (.arr xs) true = []) ∧
    (∀ (fuel : Nat) (xs : List JVal), nullNumNum xs = true → walkW fuel (.arr xs) true = []) ∧
    extractResults c4demoSkip = [] ∧
    extractResults c4demoPlain = ["some text".toList] :=
  ⟨walkW_twoNums_skip, walkW_nullNumNum_skip, by decide, by decide⟩

theorem walk_skips_timestamp_spans_witness :
    twoNums [JVal.num ['4'], JVal.num ['5'], JVal.str ['x']] = true ∧
    nullNumNum [JVal.null, JVal.num ['4'], JVal.num ['5']] = true ∧
    walkW 9 (.arr [JVal.num ['4'], JVal.num ['5'], JVal.str ['x']]) true = [] ∧
    walkW 9 (.arr [JVal.null, JVal.num ['4'], JVal.num ['5']]) true = [] :=
  ⟨by decide, by decide,
    walk_skips_timestamp_spans.1 9 _ (by decide),
    walk_skips_timestamp_spans.2.1 9 _ (by decide)⟩

-- ## Claim C5: RPC envelope decoder refinement

theorem jsIdx0_wrb_truthy (e : JVal) (h : jsIdx e 0 = JVal.str wrbMarker) :
    jsTruthy e = true := by
  rcases e with _ | _ | b | raw | s | l | fs
  · simp [jsIdx] at h
  · simp [jsIdx] at h
  · simp [jsIdx] at h
  · simp [jsIdx] at h
  · rcases s with _ | ⟨c, cs⟩
    · simp [jsIdx] at h
    · simp [jsIdx, wrbMarker] at h
  · rfl
  · rfl

theorem jsIdx0_truthy_parent (d : JVal) (h : jsTruthy (jsIdx d 0) = true) :
    jsTruthy d = true := by
  rcases d with _ | _ | b | raw | s | l | fs
  · simp [jsIdx, jsTruthy] at h
  · simp [jsIdx, jsTruthy] at h
  · simp [jsIdx, jsTruthy] at h
  · simp [jsIdx, jsTruthy] at h
  · rcases s with _ | ⟨c, cs⟩
    · simp [jsIdx, jsTruthy] at h
    · simp [jsTruthy]
  · rfl
  · rfl

theorem rpcHit_eq (d : JVal) :
    rpcHit d = decide (jsIdx (jsIdx d 0) 0 = JVal.str wrbMarker) := by
  by_cases h : jsIdx (jsIdx d 0) 0 = JVal.str wrbMarker
  · have h1 : jsTruthy (jsIdx d 0) = true := jsIdx0_wrb_truthy _ h
    have h0 : jsTruthy d = true := jsIdx0_truthy_parent _ h1
    simp [rpcHit, h0, h1, h]
  · simp [rpcHit, h]

theorem parseRpcLines_eq (ls : List (List Char)) :
    parseRpcLines ls =
      match ls.find? rpcLineQualifies with
      | some line => jparse (trimChars line)
      | none => none := by
  induction ls with
  | nil => rfl
  | cons line rest ih =>
      rw [parseRpcLines, List.find?_cons]
      by_cases hb : bracketBracket.isPrefixOf (trimChars line)
      · cases hj : jparse (trimChars line) with
        | none =>
            have hq : rpcLineQualifies line = false := by
              simp [rpcLineQualifies, hb, hj]
            simp only [hb, if_true, hj, hq, ih]
        | some d =>
            by_cases hr : rpcHit d = true
            · have hq : rpcLineQualifies line = true := by
                simp [rpcLineQualifies, hb, hj, ← rpcHit_eq, hr]
              simp only [hb, if_true, hj, hq, hr]
            · have hr' : rpcHit d = false := by simpa using hr
              have hq : rpcLineQualifies line = false := by
                simp [rpcLineQualifies, hb, hj, ← rpcHit_eq, hr']
              simp only [hb, if_true, hj, hq, hr', Bool.false_eq_true, if_false, ih]
      · have hq : rpcLineQualifies line = false := by
          simp [rpcLineQualifies, hb]
        simp only [hb, Bool.false_eq_true, if_false, hq, ih]

/-- C5: `_parseRpcResponse` splits on newlines and returns the parsed JSON
value of the first trimmed line beginning with `[[` that parses as JSON and
whose element `[0][0]` is the literal `wrb.fr`; when no line qualifies it
returns null (`none`) instead of raising. -/
theorem parseRpc_first_wrb_line (text : List Char) :
    parseRpcResponse text = specRpcDecode text := by
  rw [parseRpcResponse, specRpcDecode, parseRpcLines_eq]

-- ## Claim C9: termination of the scanning loop, totality of the balance scan

/-- The position update of one iteration of the scanning loop: one past the
balanced closing bracket on success, one past the opening bracket when no
balanced end exists, `none` when no further `[` occurs (loop exits). -/
def nextScanPos (t : List Char) (pos : Nat) : Option Nat :=
  match idxFrom '[' t pos with
  | none => none
  | some sb =>
      match findBalancedEnd t sb with
      | none => some (sb + 1)
      | some eb => some (eb + 1)

/-- The state `(depth, inString, escape)` transition of the balance scan,
one character at a time (identical to the loop body of `_findBalancedEnd`,
without the early return). -/
def balStep (st : Int × Bool × Bool) (ch : Char) : Int × Bool × Bool :=
  let (depth, inString, escape) := st
  if escape then (depth, inString, false)
  else if ch = '\\' then (depth, inString, true)
  else if ch = '"' then (depth, !inString, escape)
  else if inString then (depth, inString, escape)
  else if ch = '[' then (depth + 1, inString, escape)
  else if ch = ']' then (depth - 1, inString, escape)
  else if ch = braceOpen then (depth + 1, inString, escape)
  else if ch = braceClose then (depth - 1, inString, escape)
  else (depth, inString, escape)

/-- The bracket depth after processing characters `start .. n` (inclusive)
of `s`, starting from depth zero outside any string. -/
def balDepthAt (s : List Char) (start n : Nat) : Int :=
  (((s.drop start).take (n - start + 1)).foldl balStep (0, false, false)).1

/-- The counterexample string `[}[]` (open bracket, close brace, open
bracket, close bracket). -/
def fbeCex : List Char := ['[', braceClose, '[', ']']

/-- C9 counterexample: `_findBalancedEnd` does not always return the index
at which the bracket depth first returns to zero.  On `[}[]` the depth
first returns to zero at index 1 (the closing curly brace), yet the
function returns index 3, because only a closing square bracket triggers
its return. -/
theorem findBalancedEnd_not_first_zero :
    findBalancedEnd fbeCex 0 = some 3 ∧
    balDepthAt fbeCex 0 1 = 0 ∧ balDepthAt fbeCex 0 0 ≠ 0 ∧
    (3 : Nat) ≠ 1 := by
  refine ⟨by decide, by decide, by decide, by decide⟩

/-- C9 (amended): the scanning loop of `_parseStreamedResponse` strictly
advances its position on every iteration — to one past the balanced closing
bracket on success, or one past the opening bracket when no balanced end
exists — so it terminates (its value is independent of any fuel above the
remaining length); and `_findBalancedEnd` is total, returning `-1`/`none`
or an index within the string bounds holding a closing square bracket (the
first `]` that brings the structural depth to zero; a `}` can pass the
depth through zero without triggering a return). -/
theorem scanLoop_terminates :
    (∀ (t : List Char) (pos p' : Nat), nextScanPos t pos = some p' →
        pos < p' ∧ p' ≤ t.length) ∧
    (∀ (s : List Char) (start : Nat),
        findBalancedEnd s start = none ∨
        ∃ i, findBalancedEnd s start = some i ∧ start ≤ i ∧ i < s.length ∧
          s.get? i = some ']') ∧
    (∀ (f1 f2 : Nat) (t : List Char) (pos : Nat) (ft : List Char),
        t.length - pos < f1 → t.length - pos < f2 →
        scanLoopF f1 t pos ft = scanLoopF f2 t pos ft) := by
  refine ⟨?_, ?_, ?_⟩
  · intro t pos p' h
    cases hidx : idxFrom '[' t pos with
    | none => simp [nextScanPos, hidx] at h
    | some sb =>
        have hsb := idxFrom_bounds '[' t pos sb hidx
        cases hfbe : findBalancedEnd t sb with
        | none =>
            simp [nextScanPos, hidx, hfbe] at h
            omega
        | some eb =>
            have heb := findBalancedEnd_bounds t sb eb hfbe
            simp [nextScanPos, hidx, hfbe] at h
            omega
  · intro s start
    cases hf : findBalancedEnd s start with
    | none => exact Or.inl rfl
    | some i =>
        refine Or.inr ⟨i, rfl, ?_⟩
        have hb := findBalancedEnd_bounds s start i hf
        have hg := fbeGo_get (s.drop start) start 0 false false i hf
        refine ⟨hb.1, hb.2, ?_⟩
        rw [List.get?_drop] at hg
        rwa [Nat.add_sub_cancel' hb.1] at hg
  · intro f1
    induction f1 with
    | zero => intro f2 t pos ft h1 h2; omega
    | succ k ih =>
        intro f2 t pos ft h1 h2
        cases f2 with
        | zero => omega
        | succ m =>
            rw [scanLoopF, scanLoopF]
            by_cases hp : pos < t.length
            · simp only [hp, if_true]
              cases hidx : idxFrom '[' t pos with
              | none => rfl
              | some sb =>
                  have hsb := idxFrom_bounds '[' t pos sb hidx
                  dsimp only
                  cases hfbe : findBalancedEnd t sb with
                  | none =>
                      exact ih m t (sb + 1) ft (by omega) (by omega)
                  | some eb =>
                      have heb := findBalancedEnd_bounds t sb eb hfbe
                      exact ih m t (eb + 1) _ (by omega) (by omega)
            · simp only [hp, if_false]

theorem scanLoop_terminates_witness :
    nextScanPos ['[', ']'] 0 = some 2 ∧ (0 < 2 ∧ 2 ≤ 2) ∧
    ("x".toList.length - 0 < 2 ∧ "x".toList.length - 0 < 3) ∧
    scanLoopF 2 "x".toList 0 [] = scanLoopF 3 "x".toList 0 [] :=
  ⟨by decide, scanLoop_terminates.1 ['[', ']'] 0 2 (by decide), ⟨by decide, by decide⟩,
    scanLoop_terminates.2.2 2 3 "x".toList 0 [] (by decide) (by decide)⟩

-- ## Claim C10: the Cookie header built by the cookie-transport client

/-- A captured browser cookie, as consumed by `NativeFetchClient`. -/
structure ChromeCookie where
  name : List Char
  value : List Char
  domain : List Char
  path : List Char
  secure : Bool
  httpOnly : Bool
deriving DecidableEq

/-- `cookie.domain.startsWith('.') ? cookie.domain.substring(1) : cookie.domain`. -/
def cookieBaseDomain (c : ChromeCookie) : List Char :=
  if ['.'].isPrefixOf c.domain then c.domain.drop 1 else c.domain

/-- The filter of `getCookieHeader`: dot-prefixed cookie domains match by
suffix (`host.endsWith(cookieDomain) || host === cookieDomain`), bare
domains require exact host equality; the cookie path must be a prefix of
the URL's pathname. -/
def cookieMatches (host pathname : List Char) (c : ChromeCookie) : Bool :=
  (if ['.'].isPrefixOf c.domain then
     (cookieBaseDomain c).isSuffixOf host || decide (host = cookieBaseDomain c)
   else decide (host = cookieBaseDomain c))
  && c.path.isPrefixOf pathname

/-- The `validCookies` list of `getCookieHeader`. -/
def validCookies (cookies : List ChromeCookie) (host pathname : List Char) :
    List ChromeCookie :=
  cookies.filter (cookieMatches host pathname)

/-- The sort order of `getCookieHeader`'s comparator: `a` may come no later
than `b` when `a`'s path is longer, or the paths tie and `a`'s domain is at
least as long. -/
def cookieLe (a b : ChromeCookie) : Bool :=
  decide (b.path.length < a.path.length) ||
    (decide (a.path.length = b.path.length) && decide (b.domain.length ≤ a.domain.length))

/-- `a` strictly precedes `b` under the comparator (used for a stable
sort, as `Array.prototype.sort` is specified stable). -/
def cookieBefore (a b : ChromeCookie) : Bool :=
  decide (b.path.length < a.path.length) ||
    (decide (a.path.length = b.path.length) && decide (b.domain.length < a.domain.length))

/-- Stable insertion into a sorted cookie list: `x` goes before the first
element that does not strictly precede it. -/
def sIns (x : ChromeCookie) : List ChromeCookie → List ChromeCookie
  | [] => [x]
  | y :: ys => if cookieBefore y x then y :: sIns x ys else x :: y :: ys

/-- The stable descending sort (longest path, then longest domain) of
`getCookieHeader`. -/
def sSort : List ChromeCookie → List ChromeCookie
  | [] => []
  | x :: xs => sIns x (sSort xs)

/-- The deduplication by name of `getCookieHeader`: a `Map` keyed by cookie
name keeps the first (most specific, after the sort) occurrence. -/
def dedupAux (seen : List (List Char)) : List ChromeCookie → List ChromeCookie
  | [] => []
  | c :: cs =>
      if c.name ∈ seen then dedupAux seen cs
      else c :: dedupAux (c.name :: seen) cs

/-- The entries of the Cookie header, in order. -/
def dedupedCookies (cookies : List ChromeCookie) (host pathname : List Char) :
    List ChromeCookie :=
  dedupAux [] (sSort (validCookies cookies host pathname))

/-- `getCookieHeader(targetUrl)`, as a function of the URL's hostname and
pathname (the `new URL` parsing is outside the embedded core). -/
def getCookieHeader (cookies : List ChromeCookie) (host pathname : List Char) :
    List Char :=
  List.intercalate "; ".toList
    ((dedupedCookies cookies host pathname).map (fun c => c.name ++ ['='] ++ c.value))

theorem cookieLe_refl (a : ChromeCookie) : cookieLe a a = true := by
  simp [cookieLe]

theorem cookieLe_trans (a b c : ChromeCookie)
    (h1 : cookieLe a b = true) (h2 : cookieLe b c = true) : cookieLe a c = true := by
  simp only [cookieLe, Bool.or_eq_true, Bool.and_eq_true, decide_eq_true_eq] at h1 h2 ⊢
  omega

theorem notBefore_le (x y : ChromeCookie) (h : cookieBefore y x = false) :
    cookieLe x y = true := by
  simp only [cookieBefore, Bool.or_eq_false_iff, Bool.and_eq_false_iff,
    decide_eq_false_iff_not] at h
  simp only [cookieLe, Bool.or_eq_true, Bool.and_eq_true, decide_eq_true_eq]
  rcases h with ⟨h1, h2⟩
  rcases h2 with h2 | h2 <;> omega

theorem before_le (x y : ChromeCookie) (h : cookieBefore y x = true) :
    cookieLe y x = true := by
  simp only [cookieBefore, Bool.or_eq_true, Bool.and_eq_true, decide_eq_true_eq] at h
  simp only [cookieLe, Bool.or_eq_true, Bool.and_eq_true, decide_eq_true_eq]
  omega

theorem mem_sIns (a x : ChromeCookie) (l : List ChromeCookie) :
    a ∈ sIns x l ↔ a = x ∨ a ∈ l := by
  induction l with
  | nil => simp [sIns]
  | cons y ys ih =>
      by_cases hb : cookieBefore y x = true
      · rw [sIns, if_pos hb]
        simp only [List.mem_cons, ih]
        tauto
      · simp only [Bool.not_eq_true] at hb
        rw [sIns, if_neg (by simp [hb])]
        simp only [List.mem_cons]

theorem mem_sSort (a : ChromeCookie) (l : List ChromeCookie) :
    a ∈ sSort l ↔ a ∈ l := by
  induction l with
  | nil => simp [sSort]
  | cons x xs ih => simp [sSort, mem_sIns, ih]

theorem sIns_pairwise (x : ChromeCookie) (l : List ChromeCookie)
    (h : l.Pairwise (fun a b => cookieLe a b = true)) :
    (sIns x l).Pairwise (fun a b => cookieLe a b = true) := by
  induction l with
  | nil => simp [sIns]
  | cons y ys ih =>
      rcases List.pairwise_cons.mp h with ⟨hy, hys⟩
      by_cases hb : cookieBefore y x = true
      · rw [sIns, if_pos hb]
        refine List.pairwise_cons.mpr ⟨?_, ih hys⟩
        intro z hz
        rcases (mem_sIns z x ys).mp hz with rfl | hz'
        · exact before_le _ _ hb
        · exact hy z hz'
      · simp only [Bool.not_eq_true] at hb
        rw [sIns, if_neg (by simp [hb])]
        refine List.pairwise_cons.mpr ⟨?_, h⟩
        intro z hz
        rcases List.mem_cons.mp hz with rfl | hz'
        · exact notBefore_le _ _ hb
        · exact cookieLe_trans x y z (notBefore_le x y hb) (hy z hz')

theorem sSort_pairwise (l : List ChromeCookie) :
    (sSort l).Pairwise (fun a b => cookieLe a b = true) := by
  induction l with
  | nil => simp [sSort]
  | cons x xs ih => exact sIns_pairwise x (sSort xs) ih

theorem dedupAux_subset (seen : List (List Char)) (l : List ChromeCookie)
    (c : ChromeCookie) (h : c ∈ dedupAux seen l) : c ∈ l := by
  induction l generalizing seen with
  | nil => simp [dedupAux] at h
  | cons x xs ih =>
      rw [dedupAux] at h
      split at h
      · exact List.mem_cons_of_mem x (ih _ h)
      · rcases List.mem_cons.mp h with rfl | h'
        · exact List.mem_cons_self c xs
        · exact List.mem_cons_of_mem x (ih _ h')

theorem dedupAux_name_notin (seen : List (List Char)) (l : List ChromeCookie)
    (c : ChromeCookie) (h : c ∈ dedupAux seen l) : c.name ∉ seen := by
  induction l generalizing seen with
  | nil => simp [dedupAux] at h
  | cons x xs ih =>
      rw [dedupAux] at h
      split at h
      · exact ih _ h
      · rcases List.mem_cons.mp h with rfl | h'
        · assumption
        · intro hc
          exact ih _ h' (List.mem_cons_of_mem _ hc)

theorem dedupAux_names_nodup (seen : List (List Char)) (l : List ChromeCookie) :
    ((dedupAux seen l).map (fun c => c.name)).Nodup := by
  induction l generalizing seen with
  | nil => simp [dedupAux]
  | cons x xs ih =>
      rw [dedupAux]
      split
      · exact ih seen
      · refine List.nodup_cons.mpr ⟨?_, ih (x.name :: seen)⟩
        intro hmem
        rcases List.mem_map.mp hmem with ⟨d, hd, hdn⟩
        exact dedupAux_name_notin _ _ d hd (by simp [hdn])

theorem dedupAux_first_le (l : List ChromeCookie)
    (hp : l.Pairwise (fun a b => cookieLe a b = true)) :
    ∀ (seen : List (List Char)) (c d : ChromeCookie),
      c ∈ dedupAux seen l → d ∈ l → d.name = c.name → cookieLe c d = true := by
  induction l with
  | nil => intro seen c d hc hd; simp at hd
  | cons x xs ih =>
      rcases List.pairwise_cons.mp hp with ⟨hx, hxs⟩
      intro seen c d hc hd hn
      rw [dedupAux] at hc
      split at hc
      · rename_i hseen
        rcases List.mem_cons.mp hd with rfl | hd'
        · exact absurd (hn ▸ hseen) (dedupAux_name_notin _ _ c hc)
        · exact ih hxs seen c d hc hd' hn
      · rcases List.mem_cons.mp hc with rfl | hc'
        · rcases List.mem_cons.mp hd with rfl | hd'
          · exact cookieLe_refl _
          · exact hx d hd'
        · have hcn := dedupAux_name_notin _ _ c hc'
          rcases List.mem_cons.mp hd with rfl | hd'
          · exact absurd (by simp [hn]) hcn
          · exact ih hxs _ c d hc' hd' hn

/-- C10: the Cookie header contains at most one entry per cookie name; every
entry comes from the cookie set and matches the URL's host (suffix matching
for dot-prefixed domains, exact equality otherwise) and its path is a
prefix of the URL's path; and among matching cookies sharing a name the
chosen one has the longest path, then the longest domain (`cookieLe`). -/
theorem cookieHeader_dedup_and_match (cookies : List ChromeCookie) (host pathname : List Char) :
    ((dedupedCookies cookies host pathname).map (fun c => c.name)).Nodup ∧
    (∀ c ∈ dedupedCookies cookies host pathname,
        c ∈ cookies ∧ cookieMatches host pathname c = true) ∧
    (∀ c ∈ dedupedCookies cookies host pathname,
        ∀ d ∈ validCookies cookies host pathname,
          d.name = c.name → cookieLe c d = true) := by
  refine ⟨dedupAux_names_nodup _ _, ?_, ?_⟩
  · intro c hc
    have hv : c ∈ validCookies cookies host pathname := by
      have := dedupAux_subset _ _ c hc
      rwa [mem_sSort] at this
    exact ⟨(List.mem_filter.mp hv).1, (List.mem_filter.mp hv).2⟩
  · intro c hc d hd hn
    exact dedupAux_first_le _ (sSort_pairwise _) [] c d hc ((mem_sSort d _).mpr hd) hn

/-- Two cookies named `SID`, one on path `/` and one on the longer path
`/app`; the header keeps the more specific one only. -/
def cookieA : ChromeCookie :=
  ⟨"SID".toList, "v1".toList, ".google.com".toList, "/".toList, true, true⟩

def cookieB : ChromeCookie :=
  ⟨"SID".toList, "v2".toList, ".google.com".toList, "/app".toList, true, true⟩

theorem cookieHeader_dedup_and_match_witness :
    dedupedCookies [cookieA, cookieB] "notebooklm.google.com".toList "/app/x".toList =
      [cookieB] ∧
    (cookieB ∈ [cookieA, cookieB] ∧
      cookieMatches "notebooklm.google.com".toList "/app/x".toList cookieB = true) ∧
    cookieLe cookieB cookieA = true ∧
    getCookieHeader [cookieA, cookieB] "notebooklm.google.com".toList "/app/x".toList =
      "SID=v2".toList :=
  ⟨by decide,
    (cookieHeader_dedup_and_match [cookieA, cookieB] "notebooklm.google.com".toList
        "/app/x".toList).2.1 cookieB (by decide),
    (cookieHeader_dedup_and_match [cookieA, cookieB] "notebooklm.google.com".toList
        "/app/x".toList).2.2 cookieB (by decide) cookieA (by decide) (by decide),
    by decide⟩

-- ## The orchestrator (`prepareNotebook`, polling, infographic generation)

/-- Errors thrown by the embedded client code, one constructor per distinct
throw site / JS exception kind. -/
inductive JsErr : Type where
  | authRequired
  | tokensNotFound
  | rpcFailed (status : Nat)
  | noSources
  | invalidAddSource
  | noSourceIdFound
  | generationTimeout
  | typeError
  | syntaxError
deriving DecidableEq

def RPC_CREATE_NOTEBOOK : List Char := "CCqFvf".toList

def RPC_ADD_SOURCE : List Char := "izAoDd".toList

def RPC_GENERATE_INFOGRAPHIC : List Char := "R7cb6c".toList

def RPC_LIST_ARTIFACTS : List Char := "gArtLc".toList

def RPC_LOAD_NOTEBOOK : List Char := "rLM1Ne".toList

/-- A character of the class `[0-9a-fA-F-]`. -/
def isHexDashChar (c : Char) : Bool :=
  c.isDigit || ('a' ≤ c && c ≤ 'f') || ('A' ≤ c && c ≤ 'F') || c = '-'

/-- `_parseNotebookUrl`: first match of `notebook\/([0-9a-fA-F-]{36})`,
returning the captured 36 characters. -/
def parseNotebookUrl : List Char → Option (List Char)
  | [] => none
  | l@(_ :: rest) =>
      if "notebook/".toList.isPrefixOf l then
        let cand := (l.drop 9).take 36
        if cand.length = 36 ∧ cand.all isHexDashChar then some cand
        else parseNotebookUrl rest
      else parseNotebookUrl rest

/-- The UUID test `/^[0-9a-f]{8}-[0-9a-f]{4}-[0-9a-f]{4}-[0-9a-f]{4}-[0-9a-f]{12}$/i`. -/
def isUuid (s : List Char) : Bool :=
  s.length = 36 &&
    (List.range 36).all (fun i =>
      let c := s.getD i ' '
      if i = 8 ∨ i = 13 ∨ i = 18 ∨ i = 23 then c = '-'
      else c.isDigit || ('a' ≤ c && c ≤ 'f') || ('A' ≤ c && c ≤ 'F'))

mutual

/-- `_findSourceId`: depth-first search for the first UUID-shaped string
(recursing into arrays only, exactly as the source). -/
def findSourceId : JVal → Option (List Char)
  | .str s => if isUuid s then some s else none
  | .arr l => findSourceIdList l
  | _ => none

def findSourceIdList : List JVal → Option (List Char)
  | [] => none
  | x :: xs =>
      match findSourceId x with
      | some r => some r
      | none => findSourceIdList xs

end

mutual

/-- `_findImageUrl`: first string containing `googleusercontent.com` or
starting with `data:image/`. -/
def findImageUrl : JVal → Option (List Char)
  | .str s =>
      if containsSub s "googleusercontent.com".toList ||
          "data:image/".toList.isPrefixOf s then some s
      else none
  | .arr l => findImageUrlList l
  | _ => none

def findImageUrlList : List JVal → Option (List Char)
  | [] => none
  | x :: xs =>
      match findImageUrl x with
      | some r => some r
      | none => findImageUrlList xs

end

/-- `v[i]` in a position where JavaScript would throw a `TypeError` on
`null`/`undefined`. -/
def jsIdxThrow (v : JVal) (i : Nat) : Except JsErr JVal :=
  match v with
  | .null => .error .typeError
  | .undefined => .error .typeError
  | _ => .ok (jsIdx v i)

/-- `JSON.parse(v)` on a JavaScript value: a string is parsed; `null`,
numbers and booleans coerce to their own source text and re-parse;
`undefined` coerces to the text `undefined` and throws; the array/object
coercions are not modelled (unreached in every scenario below) and mapped
to a parse error. -/
def jsonParseJs (v : JVal) : Except JsErr JVal :=
  match v with
  | .str s => match jparse s with | some j => .ok j | none => .error .syntaxError
  | .null => .ok .null
  | .bool b => .ok (.bool b)
  | .num raw => match jparse raw with | some j => .ok j | none => .error .syntaxError
  | .undefined => .error .syntaxError
  | _ => .error .syntaxError

/-- The oracle giving the outcome of each awaited effect of one
orchestrator run (RPC responses as `_executeRpc` returns them: the parsed
`wrb.fr` frame or null, or the exception it threw). -/
structure ClientOracle where
  startRes : Except JsErr Unit
  createRes : Except JsErr JVal
  addSourceRes : Except JsErr JVal
  fetchSourceIdRes : Except JsErr JVal
  triggerRes : Except JsErr JVal
  listArtifactsRes : Nat → Except JsErr JVal

deriving instance DecidableEq for Except

/-- The client's observable state: whether session tokens are loaded
(`atTok` models the source field `sessionTokens.at`), and the persisted
`cache.json` contents. -/
structure ClientState where
  atTok : Bool
  cache : JVal
deriving DecidableEq

/-- Observable outcome of one `prepareNotebook` run: its return value or
thrown error, the RPCs issued (id and payload, in order), the number of
cache-file writes, and the state afterwards. -/
structure PrepOut where
  result : Except JsErr (JVal × JVal)
  rpcs : List (List Char × JVal)
  cacheWrites : Nat
  state : ClientState
deriving DecidableEq

/-- `if (!this.sessionTokens.at) await this.start()` (the native client
calls `_refreshTokens()`; both set the tokens or throw). -/
def ensureStart (o : ClientOracle) (st : ClientState) : Except JsErr ClientState :=
  if st.atTok then .ok st
  else
    match o.startRes with
    | .ok _ => .ok { st with atTok := true }
    | .error e => .error e

/-- The cached notebook id for a URL, as the import branch reads it:
`entry.notebookId || entry.notebook_id` for object entries, the entry
itself otherwise, null when absent/falsy. -/
def cacheNotebookId (cache : JVal) (url : List Char) : JVal :=
  let entry := jsField cache url
  if jsTruthy entry then
    if jsTypeofObject entry then
      jsOr (jsField entry "notebookId".toList) (jsField entry "notebook_id".toList)
    else entry
  else .null

/-- The cached source id for a URL: `entry.sourceId || entry.source_id` for
object entries, null otherwise (both branches of the source read it this
way). -/
def cacheSourceId (cache : JVal) (url : List Char) : JVal :=
  let entry := jsField cache url
  if jsTruthy entry then
    if jsTypeofObject entry then
      jsOr (jsField entry "sourceId".toList) (jsField entry "source_id".toList)
    else .null
  else .null

/-- The payload of the load-notebook RPC issued by `listSources`. -/
def loadNotebookPayload (nid : List Char) : JVal :=
  .arr [.str nid, .null, .arr [.num ['2']], .null, .num ['0']]

/-- The fixed create-notebook payload. -/
def createPayload : JVal :=
  .arr [.str [], .null, .null, .arr [.num ['2']],
    .arr [.num ['1'], .null, .null, .null, .null, .null, .null, .null, .null, .null,
      .arr [.num ['1']]]]

/-- The add-source payload `[[[null×7, [url], null, null, 1]], notebookId,
[2], [1, null×9, [1]]]`. -/
def addSourcePayload (url : List Char) (notebookId : JVal) : JVal :=
  .arr [.arr [.arr [.null, .null, .null, .null, .null, .null, .null,
      .arr [.str url], .null, .null, .num ['1']]],
    notebookId, .arr [.num ['2']],
    .arr [.num ['1'], .null, .null, .null, .null, .null, .null, .null, .null, .null,
      .arr [.num ['1']]]]

/-- The extraction the source performs on the create-notebook response:
`JSON.parse(createRes[0][2])[2]`, with the exceptions JavaScript would
throw along the way. -/
def createExtract (r : Except JsErr JVal) : Except JsErr JVal :=
  match r with
  | .error e => .error e
  | .ok cr =>
      match jsIdxThrow cr 0 with
      | .error e => .error e
      | .ok c0 =>
          match jsIdxThrow c0 2 with
          | .error e => .error e
          | .ok c02 =>
              match jsonParseJs c02 with
              | .error e => .error e
              | .ok inner => jsIdxThrow inner 2

/-- The extraction on the add-source response: reject falsy responses
(`Invalid Add Source Response`), then `JSON.parse(sourceRes[0][2])`, then
`_findSourceId`; no UUID found throws the distinct
`Failed to add source (No ID found)` error (SourceRejected). -/
def addSourceExtract (r : Except JsErr JVal) : Except JsErr (List Char) :=
  match r with
  | .error e => .error e
  | .ok sr =>
      if jsTruthy sr && jsTruthy (jsIdx sr 0) then
        match jsonParseJs (jsIdx (jsIdx sr 0) 2) with
        | .error e => .error e
        | .ok innerSource =>
            match findSourceId innerSource with
            | none => .error .noSourceIdFound
            | some sid => .ok sid
      else .error .invalidAddSource

/-- The direct-notebook-URL branch of `prepareNotebook`: reuse the cached
source id when truthy, otherwise delete the stale entry, fetch the first
source over the load-notebook RPC, and persist `{notebookId, sourceId}`. -/
def prepareDirect (o : ClientOracle) (st : ClientState) (url nid : List Char) : PrepOut :=
  let sourceId := cacheSourceId st.cache url
  if jsTruthy sourceId then
    { result := .ok (.str nid, sourceId), rpcs := [], cacheWrites := 0, state := st }
  else
    match o.fetchSourceIdRes with
    | .error e =>
        { result := .error e, rpcs := [(RPC_LOAD_NOTEBOOK, loadNotebookPayload nid)],
          cacheWrites := 0, state := st }
    | .ok sid =>
        let cache2 := jsSetField (jsDelField st.cache url) url
          (.obj [("notebookId".toList, .str nid), ("sourceId".toList, sid)])
        { result := .ok (.str nid, sid),
          rpcs := [(RPC_LOAD_NOTEBOOK, loadNotebookPayload nid)],
          cacheWrites := 1, state := { st with cache := cache2 } }

/-- The tail of the import branch once a notebook id value is in hand:
reuse a truthy cached source id, otherwise run add-source, extract the
source id, persist the pair, or throw. -/
def prepareAddSource (o : ClientOracle) (st : ClientState) (url : List Char)
    (nb sourceId0 : JVal) (rpcs0 : List (List Char × JVal)) : PrepOut :=
  if jsTruthy sourceId0 then
    { result := .ok (nb, sourceId0), rpcs := rpcs0, cacheWrites := 0, state := st }
  else
    match addSourceExtract o.addSourceRes with
    | .error e =>
        { result := .error e, rpcs := rpcs0 ++ [(RPC_ADD_SOURCE, addSourcePayload url nb)],
          cacheWrites := 0, state := st }
    | .ok sid =>
        let cache2 := jsSetField st.cache url
          (.obj [("notebookId".toList, nb), ("sourceId".toList, .str sid)])
        { result := .ok (nb, .str sid),
          rpcs := rpcs0 ++ [(RPC_ADD_SOURCE, addSourcePayload url nb)],
          cacheWrites := 1, state := { st with cache := cache2 } }

/-- The import (non-notebook-URL) branch of `prepareNotebook`: read the
cache entry, create a notebook when no truthy cached id exists, then
resolve the source. -/
def prepareImport (o : ClientOracle) (st : ClientState) (url : List Char) : PrepOut :=
  let notebookId0 := cacheNotebookId st.cache url
  let sourceId0 := cacheSourceId st.cache url
  if jsTruthy notebookId0 then
    prepareAddSource o st url notebookId0 sourceId0 []
  else
    match createExtract o.createRes with
    | .error e =>
        { result := .error e, rpcs := [(RPC_CREATE_NOTEBOOK, createPayload)],
          cacheWrites := 0, state := st }
    | .ok nb =>
        let tail := prepareAddSource o st url nb sourceId0 []
        { tail with rpcs := (RPC_CREATE_NOTEBOOK, createPayload) :: tail.rpcs }

/-- `prepareNotebook(url)`: ensure session tokens, dispatch on whether the
URL is a direct notebook URL. -/
def prepareNotebook (o : ClientOracle) (st : ClientState) (url : List Char) : PrepOut :=
  match ensureStart o st with
  | .error e => { result := .error e, rpcs := [], cacheWrites := 0, state := st }
  | .ok st1 =>
      match parseNotebookUrl url with
      | some nid => prepareDirect o st1 url nid
      | none => prepareImport o st1 url

-- ## `pollForArtifacts` (both clients) and `generateInfographic`

/-- The Playwright client's list-artifacts payload, carrying the filter
that excludes suggested (not-yet-materialized) artifacts. -/
def pollFilterStr : List Char :=
  "NOT artifact.status = \"ARTIFACT_STATUS_SUGGESTED\"".toList

def pollPayloadPw (nb : JVal) : JVal :=
  .arr [.arr [.num ['2']], nb, .str pollFilterStr]

/-- The native fetch client's list-artifacts payload (`[[2], notebookId]`,
no filter: the source comment reads `Try without filter first`). -/
def pollPayloadNative (nb : JVal) : JVal :=
  .arr [.arr [.num ['2']], nb]

/-- One poll attempt's image extraction: response and `response[0]` truthy,
`response[0][2]` a string that parses as JSON, and `_findImageUrl` finds a
truthy string in it; every failure (including a thrown RPC or parse error,
swallowed by the loop's catch) yields `none`. -/
def pollAttempt (o : Nat → Except JsErr JVal) (i : Nat) : Option (List Char) :=
  match o i with
  | .error _ => none
  | .ok resp =>
      if jsTruthy resp && jsTruthy (jsIdx resp 0) then
        match jsIdx (jsIdx resp 0) 2 with
        | .str s =>
            match jparse s with
            | some innerData =>
                match findImageUrl innerData with
                | some u => if u.isEmpty then none else some u
                | none => none
            | none => none
        | _ => none
      else none

/-- Observable outcome of a poll loop: the image reference or the timeout
error, the issued RPCs, and the sleeps performed (milliseconds each). -/
structure PollOut where
  result : Except JsErr (List Char)
  rpcs : List (List Char × JVal)
  sleeps : List Nat
deriving DecidableEq

/-- The poll loop: `for (i = 0; i < 30; i++) { try { rpc; extract } catch {};
sleep 10000 }`, throwing the timeout error on exhaustion. -/
def pollGo (mk : JVal → JVal) (o : Nat → Except JsErr JVal) (nb : JVal) :
    Nat → Nat → PollOut
  | 0, _ => { result := .error .generationTimeout, rpcs := [], sleeps := [] }
  | k + 1, i =>
      let call := (RPC_LIST_ARTIFACTS, mk nb)
      match pollAttempt o i with
      | some u => { result := .ok u, rpcs := [call], sleeps := [] }
      | none =>
          let rest := pollGo mk o nb k (i + 1)
          { result := rest.result, rpcs := call :: rest.rpcs, sleeps := 10000 :: rest.sleeps }

/-- `pollForArtifacts` of the Playwright client: 30 attempts, 10 s apart,
with the suggested-artifacts filter. -/
def pollForArtifactsPw (o : Nat → Except JsErr JVal) (nb : JVal) : PollOut :=
  pollGo pollPayloadPw o nb 30 0

/-- `pollForArtifacts` of the native fetch client: 30 attempts, 10 s apart,
without the filter. -/
def pollForArtifactsNative (o : Nat → Except JsErr JVal) (nb : JVal) : PollOut :=
  pollGo pollPayloadNative o nb 30 0

/-- The trigger payload
`[[2], notebookId, [null, null, 7, [[[sourceId]]], null×10, [[null, null, null, 1, 2]]]]`;
the literal 7 selects the infographic artifact kind. -/
def triggerPayload (nb sid : JVal) : JVal :=
  .arr [.arr [.num ['2']], nb,
    .arr ([.null, .null, .num ['7'], .arr [.arr [.arr [sid]]]] ++
      List.replicate 10 JVal.null ++
      [.arr [.arr [.null, .null, .null, .num ['1'], .num ['2']]]])]

/-- Observable outcome of one `generateInfographic` run. -/
structure GenOut where
  result : Except JsErr (List Char)
  rpcs : List (List Char × JVal)
  cacheWrites : Nat
  state : ClientState
  sleeps : List Nat
deriving DecidableEq

/-- `generateInfographic(videoUrl)`: prepare the notebook, wait 5 s, issue
the trigger RPC, then poll; parameterized by the poll payload builder so it
covers both clients. -/
def generateInfographicWith (mk : JVal → JVal) (o : ClientOracle) (st : ClientState)
    (url : List Char) : GenOut :=
  let prep := prepareNotebook o st url
  match prep.result with
  | .error e =>
      { result := .error e, rpcs := prep.rpcs, cacheWrites := prep.cacheWrites,
        state := prep.state, sleeps := [] }
  | .ok (nb, sid) =>
      let tp := triggerPayload nb sid
      match o.triggerRes with
      | .error e =>
          { result := .error e, rpcs := prep.rpcs ++ [(RPC_GENERATE_INFOGRAPHIC, tp)],
            cacheWrites := prep.cacheWrites, state := prep.state, sleeps := [5000] }
      | .ok _ =>
          let poll := pollGo mk o.listArtifactsRes nb 30 0
          { result := poll.result,
            rpcs := prep.rpcs ++ [(RPC_GENERATE_INFOGRAPHIC, tp)] ++ poll.rpcs,
            cacheWrites := prep.cacheWrites, state := prep.state,
            sleeps := 5000 :: poll.sleeps }

def generateInfographicPw (o : ClientOracle) (st : ClientState) (url : List Char) : GenOut :=
  generateInfographicWith pollPayloadPw o st url

def generateInfographicNative (o : ClientOracle) (st : ClientState) (url : List Char) : GenOut :=
  generateInfographicWith pollPayloadNative o st url

-- ## The MCP server's infographic job queue (`InfographicJob`)

inductive JobStatus : Type where
  | pending
  | processing
  | completed
  | failed
deriving DecidableEq

/-- The job record of the MCP server's async infographic queue. -/
structure InfographicJob where
  videoUrl : List Char
  status : JobStatus
  imageUrl : Option (List Char)
  viewerUrl : Option (List Char)
  imageData : Option (List Char)
  error : Option JsErr
  createdAt : Nat
  completedAt : Option Nat
deriving DecidableEq

/-- The oracle for one run of the async job processor. -/
structure JobOracle where
  clientReady : Except JsErr Unit
  genResult : Except JsErr (List Char)
  downloadProcessed : Except JsErr (List Char)
deriving DecidableEq

/-- The viewer URL the server stores (`/view?url=...`; the
`encodeURIComponent` escaping is not modelled, no claim inspects it). -/
def viewerUrlFor (u : List Char) : List Char :=
  "http://localhost:3001/view?url=".toList ++ u

/-- A freshly created job (`status: pending`). -/
def newJob (url : List Char) (t : Nat) : InfographicJob :=
  { videoUrl := url, status := .pending, imageUrl := none, viewerUrl := none,
    imageData := none, error := none, createdAt := t, completedAt := none }

/-- The sequence of job states observable by `check_infographic_status`
during one run of the async processor — one entry per await suspension
point.  Field updates between awaits are a single synchronous block: in
particular `imageData` (on a successful download) and `status = completed`
become visible together, while a failed download is caught, logged, and
the job is still marked completed. -/
def processJob (o : JobOracle) (j : InfographicJob) (tEnd : Nat) : List InfographicJob :=
  let s1 := { j with status := JobStatus.processing }
  match o.clientReady with
  | .error e => [s1, { s1 with status := .failed, error := some e, completedAt := some tEnd }]
  | .ok _ =>
      match o.genResult with
      | .error e => [s1, { s1 with status := .failed, error := some e, completedAt := some tEnd }]
      | .ok u =>
          let s2 := { s1 with imageUrl := some u, viewerUrl := some (viewerUrlFor u) }
          match o.downloadProcessed with
          | .ok d =>
              [s1, s2, { s2 with imageData := some d, status := .completed, completedAt := some tEnd }]
          | .error _ =>
              [s1, s2, { s2 with status := .completed, completedAt := some tEnd }]

-- ## Claim C1: job completion versus image download

def c1url : List Char := "https://lh3.googleusercontent.com/img".toList

def c1job : InfographicJob := newJob "https://youtu.be/demo".toList 0

/-- A run in which the binary image download throws (HTTP 403). -/
def c1oracle : JobOracle :=
  { clientReady := .ok (), genResult := .ok c1url,
    downloadProcessed := .error (.rpcFailed 403) }

def c1finalState : InfographicJob :=
  { c1job with
    status := .completed
    imageUrl := some c1url
    viewerUrl := some (viewerUrlFor c1url)
    completedAt := some 99 }

/-- C1 counterexample: in the execution whose binary image download raises
an error, the job processor still sets `status = completed` while
`imageData` is unset — the final observable state is completed with no
image data. -/
theorem job_completed_without_imageData :
    c1finalState ∈ processJob c1oracle c1job 99 ∧
    c1finalState.status = JobStatus.completed ∧
    c1finalState.imageData = none := by decide

/-- C1 (amended): when the download-and-embed step succeeds, no observable
state has `status = completed` with `imageData` unset (the download is
sequenced strictly before completion); when the download raises, the job is
nevertheless marked completed, with `imageUrl`/`viewerUrl` populated and
`imageData` left as it was. -/
theorem job_image_before_completed (o : JobOracle) (j : InfographicJob) (t : Nat) :
    (∀ d, o.downloadProcessed = Except.ok d →
      ∀ s ∈ processJob o j t, s.status = JobStatus.completed → s.imageData = some d) ∧
    (∀ e u, o.downloadProcessed = Except.error e → o.clientReady = Except.ok () →
      o.genResult = Except.ok u →
      (processJob o j t).getLast? =
        some { j with
          status := JobStatus.completed
          imageUrl := some u
          viewerUrl := some (viewerUrlFor u)
          completedAt := some t }) := by
  constructor
  · intro d hd s hs hcomp
    unfold processJob at hs
    cases hcr : o.clientReady with
    | error e =>
        rw [hcr] at hs
        simp only [List.mem_cons, List.mem_singleton] at hs
        rcases hs with rfl | rfl | hfalse
        · simp at hcomp
        · simp at hcomp
        · simp at hfalse
    | ok _ =>
        rw [hcr] at hs
        cases hgr : o.genResult with
        | error e =>
            rw [hgr] at hs
            simp only [List.mem_cons, List.mem_singleton] at hs
            rcases hs with rfl | rfl | hfalse
            · simp at hcomp
            · simp at hcomp
            · simp at hfalse
        | ok u =>
            rw [hgr] at hs
            rw [hd] at hs
            simp only [List.mem_cons, List.mem_singleton] at hs
            rcases hs with rfl | rfl | rfl | hfalse
            · simp at hcomp
            · simp at hcomp
            · simp
            · simp at hfalse
  · intro e u hd hcr hgr
    unfold processJob
    rw [hcr, hgr, hd]
    rfl

def c1goodOracle : JobOracle :=
  { clientReady := .ok (), genResult := .ok c1url,
    downloadProcessed := .ok "aGVsbG8=".toList }

def c1goodFinal : InfographicJob :=
  { c1job with
    status := .completed
    imageUrl := some c1url
    viewerUrl := some (viewerUrlFor c1url)
    imageData := some "aGVsbG8=".toList
    completedAt := some 7 }

theorem job_image_before_completed_witness :
    c1goodFinal ∈ processJob c1goodOracle c1job 7 ∧
    c1goodFinal.status = JobStatus.completed ∧
    c1goodFinal.imageData = some "aGVsbG8=".toList :=
  ⟨by decide, by decide,
    (job_image_before_completed c1goodOracle c1job 7).1 "aGVsbG8=".toList (by decide)
      c1goodFinal (by decide) (by decide)⟩

-- ## Claim C6: SourceRejected on a UUID-free add-source response

/-- C6: when the add-source response decodes to a payload with no
UUID-shaped string anywhere, `prepareNotebook` throws the distinct
`noSourceIdFound` error (SourceRejected), whether the notebook id came from
the cache or from a fresh create-notebook call: the run issues no RPC after
the add-source call, performs no cache write (the file is only written
after add-source succeeds), and `generateInfographic` (either client)
propagates the error without issuing the trigger or any poll RPC.  The
error is distinct from the generic RPC failure and from the
invalid-response error. -/
theorem prepare_source_rejected
    (o : ClientOracle) (st : ClientState) (url : List Char)
    (sr inner : JVal) (raw : List Char)
    (hat : st.atTok = true)
    (hurl : parseNotebookUrl url = none)
    (hsid : jsTruthy (cacheSourceId st.cache url) = false)
    (hadd : o.addSourceRes = Except.ok sr)
    (hsr : jsTruthy sr = true) (hsr0 : jsTruthy (jsIdx sr 0) = true)
    (hraw : jsIdx (jsIdx sr 0) 2 = JVal.str raw)
    (hparse : jparse raw = some inner)
    (hnouuid : findSourceId inner = none) :
    (jsTruthy (cacheNotebookId st.cache url) = true →
      prepareNotebook o st url =
        { result := .error .noSourceIdFound,
          rpcs := [(RPC_ADD_SOURCE, addSourcePayload url (cacheNotebookId st.cache url))],
          cacheWrites := 0, state := st } ∧
      (generateInfographicPw o st url).result = .error .noSourceIdFound ∧
      (generateInfographicPw o st url).rpcs =
        [(RPC_ADD_SOURCE, addSourcePayload url (cacheNotebookId st.cache url))] ∧
      (generateInfographicNative o st url).result = .error .noSourceIdFound ∧
      (generateInfographicNative o st url).rpcs =
        [(RPC_ADD_SOURCE, addSourcePayload url (cacheNotebookId st.cache url))]) ∧
    (∀ nbv, jsTruthy (cacheNotebookId st.cache url) = false →
      createExtract o.createRes = Except.ok nbv →
      prepareNotebook o st url =
        { result := .error .noSourceIdFound,
          rpcs := [(RPC_CREATE_NOTEBOOK, createPayload),
            (RPC_ADD_SOURCE, addSourcePayload url nbv)],
          cacheWrites := 0, state := st } ∧
      (generateInfographicPw o st url).result = .error .noSourceIdFound ∧
      (generateInfographicPw o st url).rpcs =
        [(RPC_CREATE_NOTEBOOK, createPayload), (RPC_ADD_SOURCE, addSourcePayload url nbv)]) ∧
    (∀ status, JsErr.noSourceIdFound ≠ JsErr.rpcFailed status) ∧
    JsErr.noSourceIdFound ≠ JsErr.invalidAddSource := by
  have hext : addSourceExtract o.addSourceRes = Except.error JsErr.noSourceIdFound := by
    unfold addSourceExtract jsonParseJs
    rw [hadd]
    simp only [hsr, hsr0, Bool.and_self, if_true, hraw, hparse, hnouuid]
  refine ⟨?_, ?_, by intro status; simp, by simp⟩
  · intro hnb
    have hprep : prepareNotebook o st url =
        { result := .error .noSourceIdFound,
          rpcs := [(RPC_ADD_SOURCE, addSourcePayload url (cacheNotebookId st.cache url))],
          cacheWrites := 0, state := st } := by
      unfold prepareNotebook ensureStart
      rw [hat]
      simp only [if_true, hurl]
      unfold prepareImport prepareAddSource
      rw [if_pos hnb, if_neg (by simp [hsid]), hext]
      simp only [List.nil_append]
    refine ⟨hprep, ?_, ?_, ?_, ?_⟩
    · unfold generateInfographicPw generateInfographicWith
      rw [hprep]
    · unfold generateInfographicPw generateInfographicWith
      rw [hprep]
    · unfold generateInfographicNative generateInfographicWith
      rw [hprep]
    · unfold generateInfographicNative generateInfographicWith
      rw [hprep]
  · intro nbv hnb hcr
    have hprep : prepareNotebook o st url =
        { result := .error .noSourceIdFound,
          rpcs := [(RPC_CREATE_NOTEBOOK, createPayload),
            (RPC_ADD_SOURCE, addSourcePayload url nbv)],
          cacheWrites := 0, state := st } := by
      unfold prepareNotebook ensureStart
      rw [hat]
      simp only [if_true, hurl]
      unfold prepareImport prepareAddSource
      rw [if_neg (by simp [hnb]), hcr]
      dsimp only
      rw [if_neg (by simp [hsid]), hext]
      simp only [List.nil_append]
    refine ⟨hprep, ?_, ?_⟩
    · unfold generateInfographicPw generateInfographicWith
      rw [hprep]
    · unfold generateInfographicPw generateInfographicWith
      rw [hprep]

def c6url : List Char := "https://youtu.be/abc".toList

def c6st : ClientState := ⟨true, .obj [(c6url, .str "nb123".toList)]⟩

/-- An add-source response whose decoded payload `[[]]` holds no
UUID-shaped string. -/
def c6sr : JVal := .arr [.arr [.str wrbMarker, .null, .str "[[]]".toList]]

def c6oracle : ClientOracle :=
  { startRes := .ok (), createRes := .error (.rpcFailed 500),
    addSourceRes := .ok c6sr, fetchSourceIdRes := .error (.rpcFailed 500),
    triggerRes := .error (.rpcFailed 500),
    listArtifactsRes := fun _ => .error (.rpcFailed 500) }

theorem prepare_source_rejected_witness :
    prepareNotebook c6oracle c6st c6url =
      { result := .error .noSourceIdFound,
        rpcs := [(RPC_ADD_SOURCE, addSourcePayload c6url (cacheNotebookId c6st.cache c6url))],
        cacheWrites := 0, state := c6st } ∧
    (generateInfographicPw c6oracle c6st c6url).result = Except.error JsErr.noSourceIdFound :=
  ⟨((prepare_source_rejected c6oracle c6st c6url c6sr (JVal.arr [JVal.arr []]) "[[]]".toList
      (by decide) (by decide) (by decide) (by decide) (by decide) (by decide) (by decide)
      (by decide) (by decide)).1 (by decide)).1,
    ((prepare_source_rejected c6oracle c6st c6url c6sr (JVal.arr [JVal.arr []]) "[[]]".toList
      (by decide) (by decide) (by decide) (by decide) (by decide) (by decide) (by decide)
      (by decide) (by decide)).1 (by decide)).2.1⟩

-- ## Claim C7: unconditional cache reuse

theorem ensureStart_ok (o : ClientOracle) (st st1 : ClientState)
    (h : ensureStart o st = .ok st1) : st1.atTok = true ∧ st1.cache = st.cache := by
  unfold ensureStart at h
  by_cases hat : st.atTok
  · rw [if_pos hat] at h
    injection h with h
    subst h
    exact ⟨hat, rfl⟩
  · rw [if_neg hat] at h
    cases hs : o.startRes with
    | ok u => rw [hs] at h; injection h with h; subst h; exact ⟨rfl, rfl⟩
    | error e => rw [hs] at h; simp at h

theorem prepareDirect_at (o : ClientOracle) (st : ClientState) (url nid : List Char) :
    (prepareDirect o st url nid).state.atTok = st.atTok := by
  unfold prepareDirect
  dsimp only
  split
  · rfl
  · split <;> rfl

theorem prepareAddSource_at (o : ClientOracle) (st : ClientState) (url : List Char)
    (nb sid0 : JVal) (rpcs0 : List (List Char × JVal)) :
    (prepareAddSource o st url nb sid0 rpcs0).state.atTok = st.atTok := by
  unfold prepareAddSource
  dsimp only
  split
  · rfl
  · split <;> rfl

theorem prepareImport_at (o : ClientOracle) (st : ClientState) (url : List Char) :
    (prepareImport o st url).state.atTok = st.atTok := by
  unfold prepareImport
  dsimp only
  split
  · exact prepareAddSource_at o st url _ _ _
  · split
    · rfl
    · dsimp only
      exact prepareAddSource_at o st url _ _ _

theorem prepareNotebook_ok_at (o : ClientOracle) (st : ClientState) (url : List Char)
    (p : JVal × JVal) (h : (prepareNotebook o st url).result = .ok p) :
    (prepareNotebook o st url).state.atTok = true := by
  unfold prepareNotebook at h ⊢
  cases hes : ensureStart o st with
  | error e =>
      rw [hes] at h
      simp at h
  | ok st1 =>
      rw [hes] at h
      try dsimp only at h ⊢
      have hat1 := (ensureStart_ok o st st1 hes).1
      cases hp : parseNotebookUrl url with
      | some nid =>
          try dsimp only at h ⊢
          rw [prepareDirect_at, hat1]
      | none =>
          try dsimp only at h ⊢
          rw [prepareImport_at, hat1]

theorem prepareDirect_ok_fst (o : ClientOracle) (st : ClientState) (url nid : List Char)
    (a b : JVal) (h : (prepareDirect o st url nid).result = .ok (a, b)) :
    a = .str nid := by
  unfold prepareDirect at h
  dsimp only at h
  split at h
  · injection h with h
    injection h with h1 h2
    exact h1.symm
  · split at h
    · simp at h
    · injection h with h
      injection h with h1 h2
      exact h1.symm

theorem prepare_cached_hit (o : ClientOracle) (st : ClientState) (url : List Char)
    (nb sid : JVal)
    (hat : st.atTok = true)
    (hnb : cacheNotebookId st.cache url = nb)
    (hsid : cacheSourceId st.cache url = sid)
    (htn : jsTruthy nb = true) (hts : jsTruthy sid = true)
    (hdir : ∀ nid, parseNotebookUrl url = some nid → nb = .str nid) :
    prepareNotebook o st url =
      { result := .ok (nb, sid), rpcs := [], cacheWrites := 0, state := st } := by
  unfold prepareNotebook ensureStart
  rw [hat]
  simp only [if_true]
  cases hp : parseNotebookUrl url with
  | some nid =>
      have hnbnid := hdir nid hp
      unfold prepareDirect
      dsimp only
      rw [hsid, if_pos hts, ← hnbnid]
  | none =>
      unfold prepareImport prepareAddSource
      dsimp only
      rw [hnb, hsid, if_pos htn, if_pos hts]

/-- C7: if `prepareNotebook` completed successfully once and left the cache
entry for the exact URL populated with the returned (truthy) notebook id
and source id, then a second invocation on the resulting state — whatever
its oracle answers, since nothing is asked of it — issues zero RPCs,
performs no cache writes, leaves the state unchanged, and returns the
identical pair: the cached entry is reused unconditionally, with no
revalidation. -/
theorem prepare_cache_idempotent
    (o1 o2 : ClientOracle) (st : ClientState) (url : List Char)
    (nb sid : JVal)
    (hok : (prepareNotebook o1 st url).result = .ok (nb, sid))
    (htn : jsTruthy nb = true) (hts : jsTruthy sid = true)
    (hnb : cacheNotebookId (prepareNotebook o1 st url).state.cache url = nb)
    (hsid : cacheSourceId (prepareNotebook o1 st url).state.cache url = sid) :
    prepareNotebook o2 (prepareNotebook o1 st url).state url =
      { result := .ok (nb, sid), rpcs := [], cacheWrites := 0,
        state := (prepareNotebook o1 st url).state } := by
  apply prepare_cached_hit o2 _ url nb sid
    (prepareNotebook_ok_at o1 st url _ hok) hnb hsid htn hts
  intro nid hp
  unfold prepareNotebook at hok
  cases hes : ensureStart o1 st with
  | error e =>
      rw [hes] at hok
      simp at hok
  | ok st1 =>
      rw [hes] at hok
      try dsimp only at hok
      rw [hp] at hok
      try dsimp only at hok
      exact prepareDirect_ok_fst o1 st1 url nid nb sid hok

def c7url : List Char := "https://youtu.be/xyz".toList

def c7uuid : List Char := "0f8a1b2c-3d4e-5f60-7182-93a4b5c6d7e8".toList

def c7st : ClientState := ⟨true, .obj []⟩

/-- First-call oracle: the create response carries a new notebook id, the
add-source response carries a UUID source id. -/
def c7o1 : ClientOracle :=
  { startRes := .ok (),
    createRes := .ok (.arr [.arr [.null, .null, .str "[null,null,\"nbNew123\"]".toList]]),
    addSourceRes := .ok (.arr [.arr [.null, .null,
      .str "[[\"0f8a1b2c-3d4e-5f60-7182-93a4b5c6d7e8\"]]".toList]]),
    fetchSourceIdRes := .error (.rpcFailed 500), triggerRes := .error (.rpcFailed 500),
    listArtifactsRes := fun _ => .error (.rpcFailed 500) }

/-- Second-call oracle: every effect fails, showing the second call
consults nothing. -/
def c7o2 : ClientOracle :=
  { startRes := .error .authRequired, createRes := .error (.rpcFailed 500),
    addSourceRes := .error (.rpcFailed 500), fetchSourceIdRes := .error (.rpcFailed 500),
    triggerRes := .error (.rpcFailed 500),
    listArtifactsRes := fun _ => .error (.rpcFailed 500) }

theorem prepare_cache_idempotent_witness :
    (prepareNotebook c7o1 c7st c7url).result =
      Except.ok (JVal.str "nbNew123".toList, JVal.str c7uuid) ∧
    prepareNotebook c7o2 (prepareNotebook c7o1 c7st c7url).state c7url =
      { result := Except.ok (JVal.str "nbNew123".toList, JVal.str c7uuid),
        rpcs := [], cacheWrites := 0, state := (prepareNotebook c7o1 c7st c7url).state } :=
  ⟨by decide,
    prepare_cache_idempotent c7o1 c7o2 c7st c7url (JVal.str "nbNew123".toList)
      (JVal.str c7uuid) (by decide) (by decide) (by decide) (by decide) (by decide)⟩

-- ## Claim C8: the polling loop's filter, interval, attempts, and timeout

theorem pollGo_rpcs_const (mk : JVal → JVal) (o : Nat → Except JsErr JVal) (nb : JVal) :
    ∀ (k i : Nat) (call : List Char × JVal),
      call ∈ (pollGo mk o nb k i).rpcs → call = (RPC_LIST_ARTIFACTS, mk nb) := by
  intro k
  induction k with
  | zero => intro i call h; simp [pollGo] at h
  | succ m ih =>
      intro i call h
      rw [pollGo] at h
      cases ha : pollAttempt o i with
      | some u =>
          rw [ha] at h
          simp at h
          exact h
      | none =>
          rw [ha] at h
          simp only [List.mem_cons] at h
          rcases h with rfl | h'
          · rfl
          · exact ih (i + 1) call h'

theorem pollGo_all_fail (mk : JVal → JVal) (o : Nat → Except JsErr JVal) (nb : JVal)
    (hfail : ∀ j, pollAttempt o j = none) :
    ∀ (k i : Nat), pollGo mk o nb k i =
      { result := .error .generationTimeout,
        rpcs := List.replicate k (RPC_LIST_ARTIFACTS, mk nb),
        sleeps := List.replicate k 10000 } := by
  intro k
  induction k with
  | zero => intro i; rfl
  | succ m ih =>
      intro i
      rw [pollGo, hfail i, ih (i + 1)]
      simp [List.replicate_succ]

/-- C8 (amended): the Playwright client's polling loop sends every
list-artifacts RPC with the payload carrying the suggested-artifacts filter
string as its third argument; the native fetch client's loop sends the
two-element payload with no filter argument; and both loops make at most 30
attempts, sleep a fixed 10000 ms after each failed attempt, and throw the
generation-timeout error on exhaustion. -/
theorem poll_filter_and_timeout :
    (∀ (o : Nat → Except JsErr JVal) (nb : JVal) (call : List Char × JVal),
        call ∈ (pollForArtifactsPw o nb).rpcs →
          call = (RPC_LIST_ARTIFACTS, pollPayloadPw nb) ∧
          jsIdx (pollPayloadPw nb) 2 = JVal.str pollFilterStr) ∧
    (∀ nb : JVal, jsIdx (pollPayloadNative nb) 2 = JVal.undefined) ∧
    (∀ (o : Nat → Except JsErr JVal) (nb : JVal), (∀ j, pollAttempt o j = none) →
        pollForArtifactsPw o nb =
          { result := .error .generationTimeout,
            rpcs := List.replicate 30 (RPC_LIST_ARTIFACTS, pollPayloadPw nb),
            sleeps := List.replicate 30 10000 } ∧
        pollForArtifactsNative o nb =
          { result := .error .generationTimeout,
            rpcs := List.replicate 30 (RPC_LIST_ARTIFACTS, pollPayloadNative nb),
            sleeps := List.replicate 30 10000 }) := by
  refine ⟨?_, ?_, ?_⟩
  · intro o nb call h
    exact ⟨pollGo_rpcs_const pollPayloadPw o nb 30 0 call h, rfl⟩
  · intro nb
    rfl
  · intro o nb hfail
    exact ⟨pollGo_all_fail pollPayloadPw o nb hfail 30 0,
      pollGo_all_fail pollPayloadNative o nb hfail 30 0⟩

/-- An oracle whose every list response is the null frame (no artifact). -/
def c8oracle : Nat → Except JsErr JVal := fun _ => Except.ok JVal.null

/-- C8 counterexample: not every list-artifacts RPC issued by the
infographic polling loops carries the filter — the native fetch client's
loop issues `[[2], notebookId]` with no third (filter) argument. -/
theorem poll_native_lacks_filter :
    (RPC_LIST_ARTIFACTS, pollPayloadNative (JVal.str "nb".toList)) ∈
      (pollForArtifactsNative c8oracle (JVal.str "nb".toList)).rpcs ∧
    jsIdx (pollPayloadNative (JVal.str "nb".toList)) 2 = JVal.undefined ∧
    pollPayloadNative (JVal.str "nb".toList) ≠ pollPayloadPw (JVal.str "nb".toList) := by
  decide

theorem poll_filter_and_timeout_witness :
    ((RPC_LIST_ARTIFACTS, pollPayloadPw JVal.null) ∈
        (pollForArtifactsPw c8oracle JVal.null).rpcs) ∧
    ((RPC_LIST_ARTIFACTS, pollPayloadPw JVal.null) =
        (RPC_LIST_ARTIFACTS, pollPayloadPw JVal.null) ∧
      jsIdx (pollPayloadPw JVal.null) 2 = JVal.str pollFilterStr) ∧
    pollForArtifactsPw c8oracle JVal.null =
      { result := .error .generationTimeout,
        rpcs := List.replicate 30 (RPC_LIST_ARTIFACTS, pollPayloadPw JVal.null),
        sleeps := List.replicate 30 10000 } :=
  ⟨by decide,
    poll_filter_and_timeout.1 c8oracle JVal.null _ (by decide),
    (poll_filter_and_timeout.2.2 c8oracle JVal.null (fun _ => rfl)).1⟩
